import Mathlib

set_option maxHeartbeats 1000000
set_option maxRecDepth 10000

/-
Shallow embedding of the route-reconciliation core (pkg/node/routing.go) and
the kvstore client bootstrap (pkg/kvstore/client.go).

Modelling conventions:
  * Go `net.IP` is a byte slice; we model it as `List Nat` of byte values.
    A nil/absent IP is the empty list.
  * Go `*net.IPNet` is modelled as `Option IPNet` (nil pointer = none).
  * The netlink kernel-route-table adapter is an external collaborator
    (spec section 4.4/6); it is modelled as a `Kernel` state holding the route
    table (keyed by destination prefix, with replace = upsert semantics as the
    spec requires replace to be idempotent), a listing-failure flag, a
    replace-rejection predicate, and a journal of every replace call issued.
  * Process-wide accessors (GetLocalNode, GetInternalIPv4, GetIPv6Router,
    GetIPv6, alloc ranges, LinkByName, netlink.RouteGet) are read-only during a
    pass and are collected into an `Env` record.
-/

/-! ## Byte-level IP model (Go net library behaviour used by the source) -/

abbrev IP := List Nat

/-- The 12-byte v4-in-v6 marker used by Go `net.IP.Equal` and `net.IP.To4`. -/
def v4InV6Prefix : List Nat := [0, 0, 0, 0, 0, 0, 0, 0, 0, 0, 255, 255]

/-- Go `net.IP.Equal`: byte equality on same-length addresses, and a 4-byte
address equals its 16-byte v4-mapped form. `nil.Equal(nil)` is true. -/
def ipEqual (a b : IP) : Bool :=
  if a.length == b.length then a == b
  else if a.length == 4 && b.length == 16 then
    (b.take 12 == v4InV6Prefix) && (a == b.drop 12)
  else if a.length == 16 && b.length == 4 then
    (a.take 12 == v4InV6Prefix) && (b == a.drop 12)
  else false

/-- Go `net.IP.To4`: the 4-byte form when the address is IPv4 or v4-mapped. -/
def ipTo4 (a : IP) : Option IP :=
  if a.length == 4 then some a
  else if a.length == 16 && a.take 12 == v4InV6Prefix then some (a.drop 12)
  else none

def FAMILY_V4 : Nat := 2
def FAMILY_V6 : Nat := 10

/-- `ipFamily` from routing.go: V6 when `ip.To4() == nil`, else V4. -/
def ipFamily (a : IP) : Nat :=
  if (ipTo4 a).isNone then FAMILY_V6 else FAMILY_V4

/-- Go `net.CIDRMask ones bits` (bits is 32 or 128; empty on invalid input). -/
def cidrMask (ones bits : Nat) : List Nat :=
  if (bits != 32 && bits != 128) || ones > bits then []
  else (List.range (bits / 8)).map (fun i =>
    if 8 * (i + 1) ≤ ones then 255
    else if ones ≤ 8 * i then 0
    else 255 - 255 / 2 ^ (ones - 8 * i))

/-- Leading-ones count of one mask byte, `none` when the byte is not of the
form 1^k 0^(8-k) (Go returns -1 there). -/
def byteOnes (b : Nat) : Option Nat :=
  if b == 0 then some 0 else if b == 128 then some 1 else if b == 192 then some 2
  else if b == 224 then some 3 else if b == 240 then some 4 else if b == 248 then some 5
  else if b == 252 then some 6 else if b == 254 then some 7 else if b == 255 then some 8
  else none

/-- Go `simpleMaskLength`: number of leading one bits of a contiguous mask,
`none` for a non-contiguous mask. -/
def simpleMaskLength : List Nat → Option Nat
  | [] => some 0
  | 255 :: rest => (simpleMaskLength rest).map (· + 8)
  | b :: rest =>
    match byteOnes b with
    | some n => if rest.all (fun x => x == 0) then some n else none
    | none => none

/-- Go `net.IPMask.Size`: (ones, total bits), or (0, 0) for a non-contiguous
mask. routing.go's `findRoute` compares both components. -/
def maskSize (m : List Nat) : Nat × Nat :=
  match simpleMaskLength m with
  | none => (0, 0)
  | some n => (n, 8 * m.length)

/-! ## Textual canonicalization (Go `net.IP.String` / `net.IPNet.String`),
used by `route.Equal` to compare prefixes. -/

def hexDigit (n : Nat) : String :=
  (["0", "1", "2", "3", "4", "5", "6", "7", "8", "9", "a", "b", "c", "d", "e", "f"]).getD n "?"

def byteHex (b : Nat) : String := hexDigit (b / 16 % 16) ++ hexDigit (b % 16)

def bytesHex (l : List Nat) : String := l.foldl (fun s b => s ++ byteHex b) ""

/-- Hex rendering of a nonzero number without leading zeros (fuelled). -/
def hexNatAux : Nat → Nat → String
  | 0, _ => ""
  | _ + 1, 0 => ""
  | fuel + 1, n => hexNatAux fuel (n / 16) ++ hexDigit (n % 16)

def hexNat (n : Nat) : String := if n == 0 then "0" else hexNatAux 8 n

/-- 16-bit groups of a 16-byte IPv6 address. -/
def ipGroups : List Nat → List Nat
  | a :: b :: rest => (a * 256 + b) :: ipGroups rest
  | _ => []

def zerosLen : List Nat → Nat
  | 0 :: rest => zerosLen rest + 1
  | _ => 0

/-- First longest run of zero groups (start index, length). -/
def bestZeroRun (g : List Nat) : Nat × Nat :=
  (List.range g.length).foldl (fun best i =>
    let l := zerosLen (g.drop i)
    if l > best.2 then (i, l) else best) (0, 0)

/-- RFC 5952 compressed form, as Go renders a 16-byte address. -/
def v6String (a : IP) : String :=
  let g := ipGroups a
  let br := bestZeroRun g
  if br.2 < 2 then String.intercalate ":" (g.map hexNat)
  else
    String.intercalate ":" ((g.take br.1).map hexNat) ++ "::" ++
      String.intercalate ":" ((g.drop (br.1 + br.2)).map hexNat)

/-- Go `net.IP.String`. -/
def ipString (a : IP) : String :=
  if a.length == 0 then "<nil>"
  else
    match ipTo4 a with
    | some p4 =>
      toString (p4.getD 0 0) ++ "." ++ toString (p4.getD 1 0) ++ "." ++
        toString (p4.getD 2 0) ++ "." ++ toString (p4.getD 3 0)
    | none => if a.length != 16 then "?" ++ bytesHex a else v6String a

/-- Go `net.IPNet`: a destination network (address plus mask). -/
structure IPNet where
  ip : IP
  mask : List Nat
deriving DecidableEq

/-- Go `net.IPMask.String`. -/
def maskString (m : List Nat) : String :=
  if m.length == 0 then "<nil>" else bytesHex m

/-- Go `networkNumberAndMask`: canonical address form and matching-width mask. -/
def networkNumberAndMask (p : IPNet) : Option (IP × List Nat) :=
  let nn :=
    match ipTo4 p.ip with
    | some i => some i
    | none => if p.ip.length == 16 then some p.ip else none
  match nn with
  | none => none
  | some nn =>
    if p.mask.length == 4 then
      (if nn.length == 4 then some (nn, p.mask) else none)
    else if p.mask.length == 16 then
      some (nn, if nn.length == 4 then p.mask.drop 12 else p.mask)
    else none

/-- Go `net.IPNet.String`: the canonical textual form of a prefix. -/
def ipNetString (p : IPNet) : String :=
  match networkNumberAndMask p with
  | none => "<nil>"
  | some (nn, m) =>
    match simpleMaskLength m with
    | none => ipString nn ++ "/" ++ maskString m
    | some l => ipString nn ++ "/" ++ toString l

/-! ## The `route` value object (routing.go lines 26-39) -/

/-- The `route` struct of routing.go. The Go field `prefix` (a `*net.IPNet`)
is modelled as `pfx : Option IPNet`. -/
structure route where
  link : String
  pfx : Option IPNet
  via : IP
  source : IP
deriving DecidableEq

/-- The prefix disjunct of `route.Equal`. Go writes
`r.prefix == o.prefix || (r.prefix != nil && o.prefix != nil && r.prefix.String() == o.prefix.String())`;
pointer equality of two non-nil pointers implies equal `String()` forms, so on
values the disjunction is: both nil, or both non-nil with equal canonical
strings. -/
def prefixPtrOrStringEq : Option IPNet → Option IPNet → Bool
  | none, none => true
  | some p, some q => ipNetString p == ipNetString q
  | _, _ => false

/-- `route.Equal` from routing.go lines 33-39. -/
def route.Equal (r o : route) : Bool :=
  r.link == o.link &&
    ipEqual r.via o.via &&
    ipEqual r.source o.source &&
    prefixPtrOrStringEq r.pfx o.pfx

/-! ## Kernel route table adapter (external collaborator, spec sections 4.4 and 6)

Modelled from the spec: the netlink adapter exposes list/get/replace/delete
filtered by device and family. The kernel keys routes by destination prefix
and `RouteReplace` is an idempotent upsert; a `journal` records every replace
call issued so that "no kernel mutation is issued" is observable. -/

/-- A resolved network device (Go `netlink.Link`): only its index is used. -/
structure Link where
  index : Nat
deriving DecidableEq

def SCOPE_UNIVERSE : Nat := 0
def SCOPE_LINK : Nat := 253

/-- A kernel route entry / route spec (the `netlink.Route` fields the source
reads or writes): destination, gateway, preferred source, device index,
scope. A nil gateway or source is the empty list. -/
structure NlRoute where
  linkIndex : Nat
  dst : Option IPNet
  gw : IP
  src : IP
  scope : Nat
deriving DecidableEq

/-- Address family a table entry is listed under (derived from its
destination; entries with no destination never match any filter the source
builds, so their listing family is irrelevant and set to 0). -/
def routeFamily (r : NlRoute) : Nat :=
  match r.dst with
  | some d => ipFamily d.ip
  | none => 0

/-- The kernel route state: the table (one entry per destination prefix),
whether listing fails, which route specs the kernel rejects on replace, and
the journal of replace calls issued so far. -/
structure Kernel where
  table : List NlRoute
  listFails : Bool
  replaceFails : NlRoute → Bool
  journal : List NlRoute

/-- Replace-by-destination upsert into the table. -/
def upsert : List NlRoute → NlRoute → List NlRoute
  | [], v => [v]
  | r :: rest, v => if r.dst == v.dst then v :: rest else r :: upsert rest v

/-- First table entry with the given destination key. -/
def lookupKey (t : List NlRoute) (d : Option IPNet) : Option NlRoute :=
  t.find? (fun r => r.dst == d)

/-- Modelled from the spec: `netlink.RouteList(link, family)` lists the
entries on the device for one family; `none` models a listing error. -/
def RouteList (k : Kernel) (link : Link) (family : Nat) : Option (List NlRoute) :=
  if k.listFails then none
  else some (k.table.filter (fun r => r.linkIndex == link.index && routeFamily r == family))

/-- Modelled from the spec: `netlink.RouteReplace` journals the attempt and,
unless the kernel rejects the spec, upserts it by destination (replace is
idempotent as spec section 4.4 requires). Returns success. -/
def RouteReplace (k : Kernel) (rt : NlRoute) : Kernel × Bool :=
  let k1 : Kernel := { k with journal := k.journal ++ [rt] }
  if k.replaceFails rt then (k1, false)
  else ({ k1 with table := upsert k1.table rt }, true)

/-- The per-entry acceptance test of `findRoute` (routing.go lines 126-141):
skip when exactly one of the destinations is nil, else compare mask sizes,
device index, scope, destination address and gateway. (When both destinations
are nil Go would dereference a nil pointer; no caller passes a nil filter
destination, and we return false there.) -/
def matchRoute (filter r : NlRoute) : Bool :=
  match r.dst, filter.dst with
  | some rd, some fd =>
    r.linkIndex == filter.linkIndex && r.scope == filter.scope &&
      (maskSize rd.mask).1 == (maskSize fd.mask).1 &&
      (maskSize rd.mask).2 == (maskSize fd.mask).2 &&
      ipEqual rd.ip fd.ip && ipEqual r.gw filter.gw
  | _, _ => false

/-- `findRoute` (routing.go lines 120-145): list the kernel table for the
filter's family and device, report not-found on a listing error, else return
the first entry accepted by `matchRoute`. -/
def findRoute (k : Kernel) (link : Link) (filter : NlRoute) : Option NlRoute :=
  match RouteList k link (match filter.dst with | some d => ipFamily d.ip | none => 0) with
  | none => none
  | some routes => routes.find? (fun r => matchRoute filter r)

/-- The L2 nexthop route spec `replaceNexthopRoute` builds (routing.go lines
154-158): scoped to the link, destination the router network, no gateway. -/
def nhFilter (link : Link) (routerNet : IPNet) : NlRoute :=
  { linkIndex := link.index, dst := some routerNet, gw := [], src := [], scope := SCOPE_LINK }

/-- `replaceNexthopRoute` (routing.go lines 150-172): install the L2 route for
the router network unless `findRoute` already finds it. Returns success
(false models the wrapped "unable to add L2 nexthop route" error). -/
def replaceNexthopRoute (k : Kernel) (link : Link) (routerNet : IPNet) : Kernel × Bool :=
  let rt := nhFilter link routerNet
  match findRoute k link rt with
  | some _ => (k, true)
  | none => RouteReplace k rt

/-! ## L2 reachability validation and route generation (routing.go 214-274) -/

/-- Discriminants of the four `fmt.Errorf` failures of
`validateDirectL2Route`. -/
inductive L2RouteError where
  | noAddressKnown
  | routeLookupFailed
  | noRouteExists
  | extraHopDetected
deriving DecidableEq

/-- `validateDirectL2Route` (routing.go lines 214-233). `routeGet` models
`netlink.RouteGet` (best-match candidates for a destination IP, `none` on a
lookup error); a nil node IP is the empty list. -/
def validateDirectL2Route (routeGet : IP → Option (List NlRoute)) (nodeIP : IP) :
    Except L2RouteError Unit :=
  if nodeIP == [] then .error .noAddressKnown
  else
    match routeGet nodeIP with
    | none => .error .routeLookupFailed
    | some [] => .error .noRouteExists
    | some (r :: _) => if r.gw != [] then .error .extraHopDetected else .ok ()

/-- `DirectRouting` settings of the local node's routing configuration. -/
structure DirectRoutingSettings where
  installRoutes : Bool

/-- The local node's routing configuration (`localNode.Routing`; a nil
pointer is `none` at the use site). -/
structure RoutingConfiguration where
  directRouting : DirectRoutingSettings

/-- Modelled from the spec: a cluster member as the reconciliation core reads
it (name, per-family addresses possibly absent, whether it is the local node,
and the prefixes its datapath hook programs routes for). -/
structure Node where
  name : String
  ipv4 : IP
  ipv6 : IP
  isLocal : Bool
  prefixes : List IPNet

/-- Modelled from the spec: the read-only process-wide snapshot a pass uses —
the host device name and resolution, the per-family router/source addresses
and allocation ranges (spec section 6 accessors; absent = empty/none), the
local node's routing configuration, and the kernel's best-match resolution
for node IPs (`netlink.RouteGet`), all fixed for the duration of a pass. -/
structure Env where
  hostDevice : String
  linkByName : String → Option Link
  internalIPv4 : IP
  ipv6Router : IP
  ipv6 : IP
  ipv4AllocRange : Option IPNet
  ipv6AllocRange : Option IPNet
  localRouting : Option RoutingConfiguration
  routeGet : IP → Option (List NlRoute)

/-- The `clusterConfiguation` fields a pass reads (node set, auxiliary
prefixes, per-node-routes flag); the mutex is the pass boundary itself. -/
structure clusterConfiguration where
  nodes : List Node
  auxPrefixes : List (Option IPNet)
  usePerNodeRoutes : Bool

/-- The common tail of `generateRouteForIP` (routing.go lines 251-259):
per-node route via the host device when configured or when the node is local,
else the untouched route (cluster-wide fallback placeholder). -/
def perNodeOrFallback (env : Env) (cc : clusterConfiguration) (n : Node) (r : route)
    (routerIP sourceIP : IP) : route :=
  if cc.usePerNodeRoutes || n.isLocal then
    { r with link := env.hostDevice, via := routerIP, source := sourceIP }
  else r

/-- `generateRouteForIP` (routing.go lines 235-260): try the direct L2 route
when direct routing is enabled and the node is remote; a validation failure
is only logged and falls through to the per-node/fallback logic. -/
def generateRouteForIP (env : Env) (cc : clusterConfiguration) (n : Node) (r : route)
    (nodeIP routerIP sourceIP : IP) : route :=
  if (match env.localRouting with
      | some rc => rc.directRouting.installRoutes
      | none => false) && !n.isLocal then
    match validateDirectL2Route env.routeGet nodeIP with
    | .ok _ => { r with via := nodeIP }
    | .error _ => perNodeOrFallback env cc n r routerIP sourceIP
  else perNodeOrFallback env cc n r routerIP sourceIP

/-- `generateRoute` (routing.go lines 262-274): start from a route holding
only the prefix and dispatch on the prefix's family. -/
def generateRoute (env : Env) (cc : clusterConfiguration) (n : Node) (p : IPNet) : route :=
  let r : route := { link := "", pfx := some p, via := [], source := [] }
  if (ipTo4 p.ip).isSome then
    generateRouteForIP env cc n r n.ipv4 env.internalIPv4 env.internalIPv4
  else
    generateRouteForIP env cc n r n.ipv6 env.ipv6Router env.ipv6

/-- `route.getNetlinkRoute` (routing.go lines 41-58): build the netlink spec;
when the route names a device, resolve the host device (none models the
LinkByName error). -/
def getNetlinkRoute (env : Env) (r : route) : Option NlRoute :=
  let base : NlRoute :=
    { linkIndex := 0, dst := r.pfx, gw := r.via, src := r.source, scope := SCOPE_UNIVERSE }
  if r.link == "" then some base
  else
    match env.linkByName env.hostDevice with
    | none => none
    | some l => some { base with linkIndex := l.index }

/-- The IPv4 router network `&net.IPNet{IP: GetInternalIPv4(), Mask: CIDRMask(32, 32)}`. -/
def routerNet4 (env : Env) : IPNet := { ip := env.internalIPv4, mask := cidrMask 32 32 }

/-- The IPv6 router network `&net.IPNet{IP: GetIPv6Router(), Mask: CIDRMask(128, 128)}`. -/
def routerNet6 (env : Env) : IPNet := { ip := env.ipv6Router, mask := cidrMask 128 128 }

/-- `replaceNodeRoute` (routing.go lines 177-212): skip a nil prefix, resolve
the host device (errors only logged), pick the per-family router network and
via/source addresses, ensure the nexthop route (errors only logged), then
replace the prefix's route (errors only logged). -/
def replaceNodeRoute (env : Env) (k : Kernel) (ip : Option IPNet) : Kernel :=
  match ip with
  | none => k
  | some ipn =>
    match env.linkByName env.hostDevice with
    | none => k
    | some link =>
      let rvl :=
        if (ipTo4 ipn.ip).isSome then (routerNet4 env, env.internalIPv4, env.internalIPv4)
        else (routerNet6 env, env.ipv6Router, env.ipv6)
      let k1 := (replaceNexthopRoute k link rvl.1).1
      let rt : NlRoute :=
        { linkIndex := link.index, dst := some ipn, gw := rvl.2.1, src := rvl.2.2,
          scope := SCOPE_UNIVERSE }
      (RouteReplace k1 rt).1

/-- Modelled from the spec: the per-node datapath synchronization hook
(spec section 4.5 step 3) — for each of the node's prefixes it derives the
route via the Route Generation Policy (section 4.1) and, when the route is
populated (callers distinguish the fallback placeholder by checking via/link
before installing), applies it by replace; kernel errors are only logged. -/
def synchronizeToDatapath (env : Env) (cc : clusterConfiguration) (n : Node)
    (k : Kernel) : Kernel :=
  n.prefixes.foldl (fun k p =>
    let r := generateRoute env cc n p
    if r.via != [] || r.link != "" then
      match getNetlinkRoute env r with
      | none => k
      | some rt => (RouteReplace k rt).1
    else k) k

/-- `syncClusterRouting` (routing.go lines 278-311): resolve the host device
(fatal for the pass), ensure the IPv4 and IPv6 nexthop routes (each failure
returns the pass's error), run every node's datapath hook, install the
cluster-wide fallback routes when per-node routing is disabled, then the
auxiliary-prefix routes. -/
def syncClusterRouting (env : Env) (cc : clusterConfiguration) (k : Kernel) :
    Kernel × Except String Unit :=
  match env.linkByName env.hostDevice with
  | none => (k, .error "interface not found")
  | some link =>
    match replaceNexthopRoute k link (routerNet4 env) with
    | (k1, false) => (k1, .error "unable to add L2 nexthop route")
    | (k1, true) =>
      match replaceNexthopRoute k1 link (routerNet6 env) with
      | (k2, false) => (k2, .error "unable to add L2 nexthop route")
      | (k2, true) =>
        let k3 := cc.nodes.foldl (fun k n => synchronizeToDatapath env cc n k) k2
        let k4 :=
          if !cc.usePerNodeRoutes then
            replaceNodeRoute env (replaceNodeRoute env k3 env.ipv4AllocRange) env.ipv6AllocRange
          else k3
        let k5 := cc.auxPrefixes.foldl (fun k p => replaceNodeRoute env k p) k4
        (k5, .ok ())

/-! ## kvstore client bootstrap (pkg/kvstore/client.go) -/

/-- A backend client handle (`BackendOperations`); only its identity matters. -/
structure BackendOperations where
  id : Nat
deriving DecidableEq

/-- The kvstore package state the claims read: the `defaultClient` global. -/
structure KVState where
  defaultClient : Option BackendOperations
deriving DecidableEq

/-- `initClient` (client.go lines 34-49). `newClientResult` models
`module.newClient()` and `renewResult` models `renewDefaultLease()` (both
outside src/; the lease renewal is the spec's periodic-lease collaborator).
`deleteLegacyPrefixes` does not touch `defaultClient` and has no effect on
this state. -/
def initClient (newClientResult : Except String BackendOperations)
    (renewResult : Except String Unit) (s : KVState) : KVState × Except String Unit :=
  match newClientResult with
  | .error e => (s, .error e)
  | .ok c =>
    let s1 : KVState := { s with defaultClient := some c }
    match renewResult with
    | .error e => ({ s1 with defaultClient := none }, .error e)
    | .ok _ => (s1, .ok ())

/-- `Client` (client.go lines 52-54): the global client or nil. -/
def Client (s : KVState) : Option BackendOperations :=
  s.defaultClient

/-! ## Helper lemmas on the IP model -/

theorem listBeq_comm (x y : List Nat) : (x == y) = (y == x) := by
  by_cases h : x = y
  · subst h; rfl
  · have h1 : (x == y) = false := beq_eq_false_iff_ne.mpr h
    have h2 : (y == x) = false := beq_eq_false_iff_ne.mpr (Ne.symm h)
    rw [h1, h2]

theorem ipEqual_refl (a : IP) : ipEqual a a = true := by
  simp [ipEqual]

theorem ipEqual_iff (a b : IP) : ipEqual a b = true ↔
    (a = b ∨
      (a.length = 4 ∧ b.length = 16 ∧ b.take 12 = v4InV6Prefix ∧ a = b.drop 12) ∨
      (a.length = 16 ∧ b.length = 4 ∧ a.take 12 = v4InV6Prefix ∧ b = a.drop 12)) := by
  unfold ipEqual
  split_ifs with h1 h2 h3
  · simp only [beq_iff_eq] at h1 ⊢
    constructor
    · exact fun h => Or.inl h
    · rintro (h | h | h)
      · exact h
      · omega
      · omega
  · simp only [Bool.and_eq_true, beq_iff_eq] at h2 ⊢
    constructor
    · rintro ⟨hp, hd⟩
      exact Or.inr (Or.inl ⟨h2.1, h2.2, hp, hd⟩)
    · rintro (h | h | h)
      · subst h; simp [h2.1] at h1
      · exact ⟨h.2.2.1, h.2.2.2⟩
      · omega
  · simp only [Bool.and_eq_true, beq_iff_eq] at h2 h3 ⊢
    constructor
    · rintro ⟨hp, hd⟩
      exact Or.inr (Or.inr ⟨h3.1, h3.2, hp, hd⟩)
    · rintro (h | h | h)
      · subst h; simp at h1
      · omega
      · exact ⟨h.2.2.1, h.2.2.2⟩
  · simp only [Bool.and_eq_true, beq_iff_eq, Bool.false_eq_true, false_iff] at h2 h3 ⊢
    rintro (h | h | h)
    · subst h; simp at h1
    · exact h2 ⟨h.1, h.2.1⟩
    · exact h3 ⟨h.1, h.2.1⟩

theorem ipEqual_symm (a b : IP) : ipEqual a b = ipEqual b a := by
  rw [Bool.eq_iff_iff, ipEqual_iff, ipEqual_iff]
  constructor <;> rintro (h | h | h)
  · exact Or.inl h.symm
  · exact Or.inr (Or.inr ⟨h.2.1, h.1, h.2.2.1, h.2.2.2⟩)
  · exact Or.inr (Or.inl ⟨h.2.1, h.1, h.2.2.1, h.2.2.2⟩)
  · exact Or.inl h.symm
  · exact Or.inr (Or.inr ⟨h.2.1, h.1, h.2.2.1, h.2.2.2⟩)
  · exact Or.inr (Or.inl ⟨h.2.1, h.1, h.2.2.1, h.2.2.2⟩)

theorem prefixPtrOrStringEq_refl (p : Option IPNet) : prefixPtrOrStringEq p p = true := by
  cases p <;> simp [prefixPtrOrStringEq]

theorem stringBeq_comm (x y : String) : (x == y) = (y == x) := by
  by_cases h : x = y
  · subst h; rfl
  · have h1 : (x == y) = false := beq_eq_false_iff_ne.mpr h
    have h2 : (y == x) = false := beq_eq_false_iff_ne.mpr (Ne.symm h)
    rw [h1, h2]

theorem prefixPtrOrStringEq_symm (p q : Option IPNet) :
    prefixPtrOrStringEq p q = prefixPtrOrStringEq q p := by
  cases p <;> cases q <;>
    first
      | rfl
      | (simp only [prefixPtrOrStringEq]; rw [stringBeq_comm])

/-- The two sample prefixes of the spec's equality property: textually
different representations (4-byte vs v4-mapped 16-byte) of `10.0.0.0/24`. -/
def samplePrefixA : IPNet := { ip := [10, 0, 0, 0], mask := cidrMask 24 32 }

def samplePrefixB : IPNet :=
  { ip := [0, 0, 0, 0, 0, 0, 0, 0, 0, 0, 255, 255, 10, 0, 0, 0], mask := cidrMask 120 128 }

def sampleRouteA : route := { link := "", pfx := some samplePrefixA, via := [], source := [] }

def sampleRouteB : route := { link := "", pfx := some samplePrefixB, via := [], source := [] }

/-- C6: Route equality is reflexive and symmetric; two Routes are equal iff
link, via, and source are pointwise equal (absence equal to absence) and the
prefixes are both empty or identical after canonicalization; two Routes built
from textually-different representations of the same network are equal. -/
theorem route_Equal_spec :
    (∀ a : route, route.Equal a a = true) ∧
    (∀ a b : route, route.Equal a b = route.Equal b a) ∧
    (∀ a b : route, route.Equal a b = true ↔
      (a.link = b.link ∧ ipEqual a.via b.via = true ∧ ipEqual a.source b.source = true ∧
        ((a.pfx = none ∧ b.pfx = none) ∨
          (∃ p q, a.pfx = some p ∧ b.pfx = some q ∧ ipNetString p = ipNetString q)))) ∧
    (route.Equal sampleRouteA sampleRouteB = true ∧ sampleRouteA ≠ sampleRouteB) := by
  refine ⟨?_, ?_, ?_, ?_, ?_⟩
  · intro a
    simp [route.Equal, ipEqual_refl, prefixPtrOrStringEq_refl]
  · intro a b
    unfold route.Equal
    rw [stringBeq_comm, ipEqual_symm, ipEqual_symm a.source, prefixPtrOrStringEq_symm]
  · intro a b
    unfold route.Equal
    simp only [Bool.and_eq_true, beq_iff_eq, and_assoc]
    refine and_congr_right fun _ => and_congr_right fun _ => and_congr_right fun _ => ?_
    cases ha : a.pfx <;> cases hb : b.pfx <;> simp [prefixPtrOrStringEq]
  · decide
  · decide

/-- C3: validateDirectL2Route fails exactly on: absent node IP, failed kernel
lookup, zero candidates, or a non-empty gateway on the best (first) candidate;
it succeeds iff candidates exist and the best one has an empty gateway. -/
theorem validateDirectL2Route_cases (routeGet : IP → Option (List NlRoute)) (nodeIP : IP) :
    (validateDirectL2Route routeGet nodeIP = .ok () ↔
      nodeIP ≠ [] ∧ ∃ r rs, routeGet nodeIP = some (r :: rs) ∧ r.gw = []) ∧
    (validateDirectL2Route routeGet nodeIP = .error .noAddressKnown ↔ nodeIP = []) ∧
    (validateDirectL2Route routeGet nodeIP = .error .routeLookupFailed ↔
      nodeIP ≠ [] ∧ routeGet nodeIP = none) ∧
    (validateDirectL2Route routeGet nodeIP = .error .noRouteExists ↔
      nodeIP ≠ [] ∧ routeGet nodeIP = some []) ∧
    (validateDirectL2Route routeGet nodeIP = .error .extraHopDetected ↔
      nodeIP ≠ [] ∧ ∃ r rs, routeGet nodeIP = some (r :: rs) ∧ r.gw ≠ []) := by
  unfold validateDirectL2Route
  by_cases h : nodeIP = []
  · simp [h]
  · have hb : (nodeIP == ([] : List Nat)) = false := beq_eq_false_iff_ne.mpr h
    rw [hb]
    simp only [Bool.false_eq_true, if_false]
    cases hg : routeGet nodeIP with
    | none => simp [h]
    | some l =>
      cases l with
      | nil => simp [h]
      | cons r rs =>
        by_cases hgw : r.gw = []
        · simp [h, hgw]
        · simp [h, hgw, bne_iff_ne]

/-- C3 witness: a concrete lookup-failure evaluation through the theorem. -/
theorem validateDirectL2Route_cases_witness :
    validateDirectL2Route (fun _ => none) [10, 0, 0, 7] = .error .routeLookupFailed :=
  (validateDirectL2Route_cases (fun _ => none) [10, 0, 0, 7]).2.2.1.mpr
    (by exact ⟨by simp, rfl⟩)

/-- C4: when the L2 reachability validation of the node's address fails (any
failure reason), generateRouteForIP does not take the direct branch: it falls
through to the per-node/fallback logic, and no error reaches the caller (the
function returns a route, not an error). -/
theorem generateRouteForIP_downgrade (env : Env) (cc : clusterConfiguration) (n : Node)
    (r : route) (nodeIP routerIP sourceIP : IP) (e : L2RouteError)
    (h : validateDirectL2Route env.routeGet nodeIP = .error e) :
    generateRouteForIP env cc n r nodeIP routerIP sourceIP =
      perNodeOrFallback env cc n r routerIP sourceIP := by
  unfold generateRouteForIP
  split
  · rw [h]
  · rfl

/-- A concrete environment whose kernel reports an extra gateway hop for
every destination (used by witnesses). -/
def wEnvHop : Env :=
  { hostDevice := "cilium_host", linkByName := fun _ => some { index := 3 },
    internalIPv4 := [10, 0, 0, 1], ipv6Router := [], ipv6 := [],
    ipv4AllocRange := none, ipv6AllocRange := none,
    localRouting := some { directRouting := { installRoutes := true } },
    routeGet := fun _ =>
      some [{ linkIndex := 2, dst := none, gw := [192, 168, 1, 1], src := [], scope := 0 }] }

def wNodeRemote : Node :=
  { name := "node2", ipv4 := [192, 168, 1, 7], ipv6 := [], isLocal := false, prefixes := [] }

def wCC : clusterConfiguration := { nodes := [wNodeRemote], auxPrefixes := [], usePerNodeRoutes := false }

def wRoute : route := { link := "", pfx := some samplePrefixA, via := [], source := [] }

/-- C4 witness: the downgrade at a concrete extra-hop environment. -/
theorem generateRouteForIP_downgrade_witness :
    generateRouteForIP wEnvHop wCC wNodeRemote wRoute [192, 168, 1, 7] [10, 0, 0, 1] [10, 0, 0, 1] =
      perNodeOrFallback wEnvHop wCC wNodeRemote wRoute [10, 0, 0, 1] [10, 0, 0, 1] :=
  generateRouteForIP_downgrade wEnvHop wCC wNodeRemote wRoute
    [192, 168, 1, 7] [10, 0, 0, 1] [10, 0, 0, 1] .extraHopDetected rfl

/-- C5: for the local node generateRoute always returns the populated
link/via/source route of the per-node branch (link = host device, via = the
family's router address, source = the family's source address), regardless of
the global per-node-routing flag; it never takes the direct-L2 branch and
never returns the fallback placeholder. -/
theorem generateRoute_localNode (env : Env) (cc : clusterConfiguration) (n : Node)
    (p : IPNet) (h : n.isLocal = true) :
    generateRoute env cc n p =
      (if (ipTo4 p.ip).isSome then
        { link := env.hostDevice, pfx := some p,
          via := env.internalIPv4, source := env.internalIPv4 }
      else
        { link := env.hostDevice, pfx := some p,
          via := env.ipv6Router, source := env.ipv6 }) := by
  unfold generateRoute generateRouteForIP perNodeOrFallback
  simp [h]

def wNodeLocal : Node :=
  { name := "node1", ipv4 := [10, 0, 0, 1], ipv6 := [], isLocal := true, prefixes := [] }

/-- C5 witness: the local node gets the populated per-node route even with
per-node routing globally disabled. -/
theorem generateRoute_localNode_witness :
    generateRoute wEnvHop wCC wNodeLocal samplePrefixA =
      (if (ipTo4 samplePrefixA.ip).isSome then
        { link := wEnvHop.hostDevice, pfx := some samplePrefixA,
          via := wEnvHop.internalIPv4, source := wEnvHop.internalIPv4 }
      else
        { link := wEnvHop.hostDevice, pfx := some samplePrefixA,
          via := wEnvHop.ipv6Router, source := wEnvHop.ipv6 }) :=
  generateRoute_localNode wEnvHop wCC wNodeLocal samplePrefixA rfl

theorem generateRouteForIP_pfx (env : Env) (cc : clusterConfiguration) (n : Node)
    (r : route) (nodeIP routerIP sourceIP : IP) :
    (generateRouteForIP env cc n r nodeIP routerIP sourceIP).pfx = r.pfx := by
  unfold generateRouteForIP perNodeOrFallback
  split
  · split
    · rfl
    · split <;> rfl
  · split <;> rfl

/-- C9: the route returned by generateRoute carries exactly the input prefix;
none of the three routing-mode cases of generateRouteForIP touches it. -/
theorem generateRoute_preservesPrefix (env : Env) (cc : clusterConfiguration)
    (n : Node) (p : IPNet) : (generateRoute env cc n p).pfx = some p := by
  unfold generateRoute
  split <;> rw [generateRouteForIP_pfx]

/-- C8: the client accessor returns absent until initialization completes;
a failing initClient from the uninitialized state (in particular a failing
initial lease renewal, from any prior state) tears the backend down so Client
returns absent, and the error is surfaced to the caller. -/
theorem initClient_clientAbsent (nc : Except String BackendOperations)
    (rw : Except String Unit) :
    Client { defaultClient := none } = none ∧
    (∀ c e, nc = .ok c → rw = .error e → ∀ s : KVState,
      initClient nc rw s = ({ defaultClient := none }, .error e)) ∧
    (∀ e, (initClient nc rw { defaultClient := none }).2 = .error e →
      Client (initClient nc rw { defaultClient := none }).1 = none) := by
  refine ⟨rfl, ?_, ?_⟩
  · rintro c e rfl rfl s
    rfl
  · intro e h
    cases nc with
    | error e2 => rfl
    | ok c =>
      cases rw with
      | error e2 => rfl
      | ok _ => simp [initClient] at h

/-- C8 witness: a concrete failing lease renewal leaves Client absent and
surfaces the error. -/
theorem initClient_clientAbsent_witness :
    initClient (.ok { id := 5 }) (.error "lease renewal failed") { defaultClient := some { id := 9 } } =
      ({ defaultClient := none }, .error "lease renewal failed") :=
  (initClient_clientAbsent (.ok { id := 5 }) (.error "lease renewal failed")).2.1
    { id := 5 } "lease renewal failed" rfl rfl { defaultClient := some { id := 9 } }

theorem matchRoute_elim (filter r : NlRoute) (h : matchRoute filter r = true) :
    r.linkIndex = filter.linkIndex ∧ r.scope = filter.scope ∧
      ipEqual r.gw filter.gw = true ∧
      ∃ rd fd, r.dst = some rd ∧ filter.dst = some fd ∧
        maskSize rd.mask = maskSize fd.mask ∧ ipEqual rd.ip fd.ip = true := by
  unfold matchRoute at h
  cases hr : r.dst with
  | none =>
    rw [hr] at h
    cases filter.dst <;> simp at h
  | some rd =>
    cases hf : filter.dst with
    | none => rw [hr, hf] at h; simp at h
    | some fd =>
      rw [hr, hf] at h
      simp only [Bool.and_eq_true, beq_iff_eq, and_assoc] at h
      exact ⟨h.1, h.2.1, h.2.2.2.2.2, rd, fd, rfl, rfl,
        Prod.ext h.2.2.1 h.2.2.2.1, h.2.2.2.2.1⟩

/-- C7: replaceNexthopRoute queries the kernel first and, when a matching
entry exists, issues no kernel mutation and succeeds (the kernel — table and
journal — is returned unchanged); only on a miss does it issue the replace. -/
theorem replaceNexthopRoute_skip (k : Kernel) (link : Link) (routerNet : IPNet) :
    (∀ r, findRoute k link (nhFilter link routerNet) = some r →
      replaceNexthopRoute k link routerNet = (k, true)) ∧
    (findRoute k link (nhFilter link routerNet) = none →
      replaceNexthopRoute k link routerNet = RouteReplace k (nhFilter link routerNet) ∧
        (replaceNexthopRoute k link routerNet).1.journal =
          k.journal ++ [nhFilter link routerNet]) := by
  constructor
  · intro r h
    simp only [replaceNexthopRoute, h]
  · intro h
    simp only [replaceNexthopRoute, h]
    refine ⟨trivial, ?_⟩
    unfold RouteReplace
    split <;> rfl

def wLink : Link := { index := 3 }

def wRouterNet : IPNet := { ip := [10, 0, 0, 1], mask := cidrMask 32 32 }

/-- A kernel whose table already holds the nexthop route. -/
def wKernelFound : Kernel :=
  { table := [nhFilter wLink wRouterNet], listFails := false,
    replaceFails := fun _ => false, journal := [] }

/-- C7 witness: with the entry present, the call changes nothing and succeeds. -/
theorem replaceNexthopRoute_skip_witness :
    replaceNexthopRoute wKernelFound wLink wRouterNet = (wKernelFound, true) :=
  (replaceNexthopRoute_skip wKernelFound wLink wRouterNet).1 (nhFilter wLink wRouterNet) rfl

/-- C10: a route accepted by findRoute must match the filter's gateway and
the exact mask length/bits and destination address, besides device index and
scope; a table whose entries all have a different gateway yields not-found; a
listing failure yields not-found; and on not-found replaceNexthopRoute
(re-)issues the replace. -/
theorem findRoute_requiresGateway (k : Kernel) (link : Link) (filter r : NlRoute) :
    (findRoute k link filter = some r →
      matchRoute filter r = true ∧ r.linkIndex = filter.linkIndex ∧ r.scope = filter.scope ∧
        ipEqual r.gw filter.gw = true ∧
        ∃ rd fd, r.dst = some rd ∧ filter.dst = some fd ∧
          maskSize rd.mask = maskSize fd.mask ∧ ipEqual rd.ip fd.ip = true) ∧
    (k.listFails = true → findRoute k link filter = none) ∧
    ((∀ x ∈ k.table, ipEqual x.gw filter.gw = false) → findRoute k link filter = none) ∧
    (∀ rn, findRoute k link (nhFilter link rn) = none →
      (replaceNexthopRoute k link rn).1.journal = k.journal ++ [nhFilter link rn]) := by
  refine ⟨?_, ?_, ?_, ?_⟩
  · intro h
    unfold findRoute at h
    split at h
    · exact absurd h (by simp)
    · have hm : matchRoute filter r = true := List.find?_some h
      exact ⟨hm, matchRoute_elim filter r hm⟩
  · intro h
    simp [findRoute, RouteList, h]
  · intro h
    unfold findRoute RouteList
    by_cases hl : k.listFails
    · simp [hl]
    · simp only [hl, Bool.false_eq_true, if_false]
      rw [List.find?_eq_none]
      intro x hx hmx
      have hxt : x ∈ k.table := (List.mem_filter.mp hx).1
      have hgw := (matchRoute_elim filter x hmx).2.2.1
      rw [h x hxt] at hgw
      exact absurd hgw (by simp)
  · intro rn h
    simp only [replaceNexthopRoute, h]
    unfold RouteReplace
    split <;> rfl

/-- A route to the nexthop filter's destination on the same device and scope
but through a different gateway. -/
def wOtherGwRoute : NlRoute :=
  { linkIndex := 3, dst := some wRouterNet, gw := [10, 9, 9, 9], src := [], scope := SCOPE_LINK }

def wKernelOtherGw : Kernel :=
  { table := [wOtherGwRoute], listFails := false, replaceFails := fun _ => false, journal := [] }

/-- C10 witness: the same-destination different-gateway entry is not found,
so the replace is re-issued. -/
theorem findRoute_requiresGateway_witness :
    findRoute wKernelOtherGw wLink (nhFilter wLink wRouterNet) = none ∧
    (replaceNexthopRoute wKernelOtherGw wLink wRouterNet).1.journal =
      [nhFilter wLink wRouterNet] :=
  have h1 : findRoute wKernelOtherGw wLink (nhFilter wLink wRouterNet) = none :=
    (findRoute_requiresGateway wKernelOtherGw wLink (nhFilter wLink wRouterNet)
      (nhFilter wLink wRouterNet)).2.2.1 (by decide)
  ⟨h1, (findRoute_requiresGateway wKernelOtherGw wLink (nhFilter wLink wRouterNet)
      (nhFilter wLink wRouterNet)).2.2.2 wRouterNet h1⟩

/-- An environment whose kernel rejects every replace: the IPv4 nexthop
install fails on the first attempt. -/
def cexEnv : Env :=
  { hostDevice := "cilium_host", linkByName := fun _ => some { index := 3 },
    internalIPv4 := [10, 0, 0, 1],
    ipv6Router := [252, 0, 0, 0, 0, 0, 0, 0, 0, 0, 0, 0, 0, 0, 0, 1],
    ipv6 := [252, 0, 0, 0, 0, 0, 0, 0, 0, 0, 0, 0, 0, 0, 0, 1],
    ipv4AllocRange := some { ip := [10, 0, 0, 0], mask := cidrMask 16 32 },
    ipv6AllocRange := none, localRouting := none, routeGet := fun _ => none }

def cexCC : clusterConfiguration :=
  { nodes := [], auxPrefixes := [some { ip := [10, 99, 0, 0], mask := cidrMask 16 32 }],
    usePerNodeRoutes := false }

def cexKernel : Kernel :=
  { table := [], listFails := false, replaceFails := fun _ => true, journal := [] }

/-- C2 counterexample: when the IPv4 nexthop installation fails, the pass
aborts with the error — the IPv6 nexthop install, the fallback routes and the
auxiliary-prefix routes are never attempted (the journal holds only the
failed IPv4 attempt, and no issued call names the IPv6 router network or the
auxiliary prefix). -/
theorem syncNexthopAbort_cex :
    (syncClusterRouting cexEnv cexCC cexKernel).2 = .error "unable to add L2 nexthop route" ∧
    (syncClusterRouting cexEnv cexCC cexKernel).1.journal =
      [nhFilter { index := 3 } (routerNet4 cexEnv)] ∧
    ((syncClusterRouting cexEnv cexCC cexKernel).1.journal.all
      (fun rt => rt.dst != some (routerNet6 cexEnv))) = true ∧
    ((syncClusterRouting cexEnv cexCC cexKernel).1.journal.all
      (fun rt => rt.dst != some { ip := [10, 99, 0, 0], mask := cidrMask 16 32 })) = true := by
  refine ⟨rfl, rfl, by decide, by decide⟩

/-- C2 amended: a nexthop-route installation failure for either address
family aborts the synchronization pass with its error, so the remaining steps
are not attempted; once both nexthop installs succeed the pass always returns
ok — failures of the per-node, fallback and auxiliary-prefix route
replacements are only logged and never abort the remaining steps. -/
theorem syncNexthopFailureAborts (env : Env) (cc : clusterConfiguration) (k : Kernel)
    (link : Link) (hl : env.linkByName env.hostDevice = some link) :
    (∀ k1, replaceNexthopRoute k link (routerNet4 env) = (k1, false) →
      syncClusterRouting env cc k = (k1, .error "unable to add L2 nexthop route")) ∧
    (∀ k1 k2, replaceNexthopRoute k link (routerNet4 env) = (k1, true) →
      replaceNexthopRoute k1 link (routerNet6 env) = (k2, false) →
      syncClusterRouting env cc k = (k2, .error "unable to add L2 nexthop route")) ∧
    (∀ k1 k2, replaceNexthopRoute k link (routerNet4 env) = (k1, true) →
      replaceNexthopRoute k1 link (routerNet6 env) = (k2, true) →
      (syncClusterRouting env cc k).2 = .ok ()) := by
  refine ⟨?_, ?_, ?_⟩
  · intro k1 h4
    simp only [syncClusterRouting, hl, h4]
  · intro k1 k2 h4 h6
    simp only [syncClusterRouting, hl, h4, h6]
  · intro k1 k2 h4 h6
    simp only [syncClusterRouting, hl, h4, h6]

/-- The kernel state after the failed IPv4 nexthop attempt of `cexKernel`. -/
def cexKernelAfter4 : Kernel :=
  { table := [], listFails := false, replaceFails := fun _ => true,
    journal := [nhFilter { index := 3 } (routerNet4 cexEnv)] }

/-- C2 amended witness: the concrete abort through the amended theorem. -/
theorem syncNexthopFailureAborts_witness :
    syncClusterRouting cexEnv cexCC cexKernel =
      (cexKernelAfter4, .error "unable to add L2 nexthop route") :=
  (syncNexthopFailureAborts cexEnv cexCC cexKernel { index := 3 } rfl).1 cexKernelAfter4 rfl

/-! ## Idempotence of the synchronization pass (claim C1)

A pass is, on success, a fixed sequence of kernel operations determined by
the environment and the cluster snapshot: unconditional replaces (`write`)
and find-or-replace nexthop installs (`ensure`). The table is keyed by
destination; under well-formedness of the table and the configured prefixes
a filter can only be matched by the entry at its own key, which makes every
operation a per-key state machine, and a per-key last-writer-wins argument
gives idempotence. -/

inductive KOp where
  | write (v : NlRoute)
  | ensure (f : NlRoute)

def KOp.key : KOp → Option IPNet
  | .write v => v.dst
  | .ensure f => f.dst

/-- The listing family findRoute derives from the filter's destination. -/
def filterFamily (f : NlRoute) : Nat :=
  match f.dst with
  | some d => ipFamily d.ip
  | none => 0

/-- The RouteList filter findRoute applies (device and family). -/
def listedOn (link : Link) (f : NlRoute) (r : NlRoute) : Bool :=
  r.linkIndex == link.index && routeFamily r == filterFamily f

/-- findRoute as a function of the raw table and listing flag. -/
def tableFind (lf : Bool) (link : Link) (t : List NlRoute) (f : NlRoute) : Option NlRoute :=
  if lf then none
  else (t.filter (listedOn link f)).find? (fun r => matchRoute f r)

theorem findRoute_eq_tableFind (k : Kernel) (link : Link) (f : NlRoute) :
    findRoute k link f = tableFind k.listFails link k.table f := by
  cases hl : k.listFails <;>
    simp [findRoute, RouteList, tableFind, listedOn, filterFamily, hl]

/-- One pass operation acting on a table (success semantics: the kernel
accepts every replace). -/
def applyK (lf : Bool) (link : Link) (t : List NlRoute) : KOp → List NlRoute
  | .write v => upsert t v
  | .ensure f => if (tableFind lf link t f).isSome then t else upsert t f

def runOps (lf : Bool) (link : Link) (L : List KOp) (t : List NlRoute) : List NlRoute :=
  L.foldl (applyK lf link) t

/-- The per-key view of an ensure's found-test: what findRoute's scan decides
about the single entry at the filter's own key. -/
def guardK (lf : Bool) (link : Link) (f : NlRoute) : Option NlRoute → Bool
  | none => false
  | some r => !lf && listedOn link f r && matchRoute f r

/-- One pass operation acting on the entry at one key. -/
def stepK (lf : Bool) (link : Link) (x : Option NlRoute) : KOp → Option NlRoute
  | .write v => some v
  | .ensure f => if guardK lf link f x then x else some f

def runK (lf : Bool) (link : Link) (L : List KOp) (x : Option NlRoute) : Option NlRoute :=
  L.foldl (stepK lf link) x

/-- The operations of a pass that touch one key. -/
def opsAt (d : Option IPNet) (L : List KOp) : List KOp :=
  L.filter (fun o => KOp.key o == d)

/-! ### Table lemmas: upsert, lookup, key uniqueness -/

def NoDupKeys (t : List NlRoute) : Prop :=
  t.Pairwise (fun a b => a.dst ≠ b.dst)

theorem mem_upsert {t : List NlRoute} {v x : NlRoute} (h : x ∈ upsert t v) :
    x ∈ t ∨ x = v := by
  induction t with
  | nil =>
    simp [upsert] at h
    exact Or.inr h
  | cons r rest ih =>
    unfold upsert at h
    by_cases hr : r.dst = v.dst
    · rw [if_pos (beq_iff_eq.mpr hr)] at h
      rcases List.mem_cons.mp h with h | h
      · exact Or.inr h
      · exact Or.inl (List.mem_cons_of_mem _ h)
    · rw [if_neg (by simp [hr])] at h
      rcases List.mem_cons.mp h with h | h
      · exact Or.inl (h ▸ List.mem_cons_self _ _)
      · rcases ih h with h | h
        · exact Or.inl (List.mem_cons_of_mem _ h)
        · exact Or.inr h

theorem noDupKeys_upsert {t : List NlRoute} (v : NlRoute) (h : NoDupKeys t) :
    NoDupKeys (upsert t v) := by
  induction t with
  | nil => simp [upsert, NoDupKeys]
  | cons r rest ih =>
    unfold upsert
    rcases List.pairwise_cons.mp h with ⟨hhead, htail⟩
    by_cases hr : r.dst = v.dst
    · rw [if_pos (beq_iff_eq.mpr hr)]
      exact List.pairwise_cons.mpr ⟨fun b hb => hr ▸ hhead b hb, htail⟩
    · rw [if_neg (by simp [hr])]
      refine List.pairwise_cons.mpr ⟨?_, ih htail⟩
      intro b hb
      rcases mem_upsert hb with hb | hb
      · exact hhead b hb
      · exact hb ▸ hr

theorem lookupKey_upsert_self (t : List NlRoute) (v : NlRoute) :
    lookupKey (upsert t v) v.dst = some v := by
  induction t with
  | nil => simp [upsert, lookupKey, List.find?]
  | cons r rest ih =>
    unfold upsert
    by_cases h : r.dst = v.dst
    · rw [if_pos (beq_iff_eq.mpr h)]
      simp [lookupKey, List.find?]
    · rw [if_neg (by simp [h])]
      unfold lookupKey at ih ⊢
      rw [List.find?_cons_of_neg _ (by simp [h])]
      exact ih

theorem lookupKey_upsert_other (t : List NlRoute) (v : NlRoute) (d : Option IPNet)
    (hd : d ≠ v.dst) : lookupKey (upsert t v) d = lookupKey t d := by
  induction t with
  | nil =>
    simp [upsert, lookupKey, List.find?, beq_eq_false_iff_ne.mpr (Ne.symm hd)]
  | cons r rest ih =>
    unfold upsert
    by_cases h : r.dst = v.dst
    · rw [if_pos (beq_iff_eq.mpr h)]
      unfold lookupKey
      have hv : v.dst ≠ d := Ne.symm hd
      have hr2 : r.dst ≠ d := by rw [h]; exact Ne.symm hd
      rw [List.find?_cons_of_neg _ (by simp [hv]), List.find?_cons_of_neg _ (by simp [hr2])]
    · rw [if_neg (by simp [h])]
      unfold lookupKey at ih ⊢
      by_cases hrd : r.dst = d
      · rw [List.find?_cons_of_pos _ (by simp [hrd]), List.find?_cons_of_pos _ (by simp [hrd])]
      · rw [List.find?_cons_of_neg _ (by simp [hrd]), List.find?_cons_of_neg _ (by simp [hrd])]
        exact ih

theorem lookupKey_eq_some {t : List NlRoute} {d : Option IPNet} {r : NlRoute}
    (h : lookupKey t d = some r) : r ∈ t ∧ r.dst = d := by
  unfold lookupKey at h
  have h1 := List.mem_of_find?_eq_some h
  have h2 := List.find?_some h
  simp only [beq_iff_eq] at h2
  exact ⟨h1, h2⟩

theorem lookupKey_of_mem {t : List NlRoute} {r : NlRoute} (hnd : NoDupKeys t)
    (hm : r ∈ t) : lookupKey t r.dst = some r := by
  induction t with
  | nil => cases hm
  | cons a rest ih =>
    rcases List.pairwise_cons.mp hnd with ⟨hhead, htail⟩
    rcases List.mem_cons.mp hm with hm | hm
    · subst hm
      simp [lookupKey, List.find?]
    · have hne : a.dst ≠ r.dst := hhead r hm
      unfold lookupKey
      rw [List.find?_cons_of_neg _ (by simp [hne])]
      exact ih htail hm

/-! ### Well-formedness: realizable tables and configurations.

A kernel FIB only holds 4-byte or 16-byte destinations with contiguous
(CIDR) masks of the matching width, and the configured addresses have their
family's length; this is what rules out two different destination keys
matching one filter. -/

def wfNet (p : IPNet) : Bool :=
  (p.ip.length == 4 && (List.range 33).any (fun m => p.mask == cidrMask m 32)) ||
    (p.ip.length == 16 && (List.range 129).any (fun m => p.mask == cidrMask m 128))

def wfOptNet : Option IPNet → Bool
  | none => true
  | some p => wfNet p

def wfEntry (r : NlRoute) : Bool :=
  match r.dst with
  | none => true
  | some d => wfNet d

def WFTable (t : List NlRoute) : Bool := t.all wfEntry

def WFEnvCC (env : Env) (cc : clusterConfiguration) : Bool :=
  (env.internalIPv4.isEmpty || env.internalIPv4.length == 4) &&
    (env.ipv6Router.isEmpty || env.ipv6Router.length == 16) &&
    wfOptNet env.ipv4AllocRange && wfOptNet env.ipv6AllocRange &&
    cc.auxPrefixes.all wfOptNet &&
    cc.nodes.all (fun n => n.prefixes.all wfNet)

theorem maskSize_cidr32 : ∀ m ∈ List.range 33, maskSize (cidrMask m 32) = (m, 32) := by
  decide

theorem maskSize_cidr128 : ∀ m ∈ List.range 129, maskSize (cidrMask m 128) = (m, 128) := by
  decide

theorem ipEqual_len_cases {a b : IP} (h : ipEqual a b = true) :
    a.length = b.length ∨ (a.length = 4 ∧ b.length = 16) ∨
      (a.length = 16 ∧ b.length = 4) := by
  rcases (ipEqual_iff a b).mp h with h | h | h
  · exact Or.inl (h ▸ rfl)
  · exact Or.inr (Or.inl ⟨h.1, h.2.1⟩)
  · exact Or.inr (Or.inr ⟨h.1, h.2.1⟩)

theorem ipEqual_eq_of_len {a b : IP} (hl : a.length = b.length)
    (h : ipEqual a b = true) : a = b := by
  rcases (ipEqual_iff a b).mp h with h | h | h
  · exact h
  · omega
  · omega

/-- A value is good when each of the pass's two nexthop filters can only
accept it if it sits at that filter's own key. -/
def GoodVal (env : Env) (link : Link) (w : NlRoute) : Prop :=
  (matchRoute (nhFilter link (routerNet4 env)) w = true → w.dst = some (routerNet4 env)) ∧
    (matchRoute (nhFilter link (routerNet6 env)) w = true → w.dst = some (routerNet6 env))

def GoodTable (env : Env) (link : Link) (t : List NlRoute) : Prop :=
  ∀ r ∈ t, GoodVal env link r

def GoodOp (env : Env) (link : Link) : KOp → Prop
  | .write v => GoodVal env link v
  | .ensure f => f = nhFilter link (routerNet4 env) ∨ f = nhFilter link (routerNet6 env)

theorem goodVal_of_wf (env : Env) (link : Link) (w : NlRoute)
    (h4 : env.internalIPv4 = [] ∨ env.internalIPv4.length = 4)
    (h6 : env.ipv6Router = [] ∨ env.ipv6Router.length = 16)
    (hw : wfEntry w = true) : GoodVal env link w := by
  constructor
  · intro hm
    obtain ⟨_, _, _, rd, fd, hrd, hfd, hms, hip⟩ := matchRoute_elim _ _ hm
    have hfd2 : fd = routerNet4 env := by
      have : some (routerNet4 env) = some fd := hfd
      exact (Option.some.injEq _ _ ▸ this).symm
    subst hfd2
    unfold wfEntry at hw
    rw [hrd] at hw
    simp only [wfNet, Bool.or_eq_true, Bool.and_eq_true, List.any_eq_true,
      beq_iff_eq] at hw
    have hms32 : maskSize (cidrMask 32 32) = (32, 32) := maskSize_cidr32 32 (by simp)
    rcases hw with ⟨hlen, m, hmr, hmask⟩ | ⟨hlen, m, hmr, hmask⟩
    · have hsz := maskSize_cidr32 m hmr
      rw [hmask] at hms
      have hm32 : maskSize (cidrMask m 32) = maskSize (cidrMask 32 32) := hms
      rw [hsz, hms32] at hm32
      have hmv : m = 32 := (Prod.mk.injEq _ _ _ _ ▸ hm32).1
      rcases h4 with hz | hl4
      · have h0 : env.internalIPv4.length = 0 := by rw [hz]; rfl
        have hipl : ipEqual rd.ip env.internalIPv4 = true := hip
        rcases ipEqual_len_cases hipl with hc | hc | hc <;> omega
      · have hipl : ipEqual rd.ip env.internalIPv4 = true := hip
        have heq : rd.ip = env.internalIPv4 := ipEqual_eq_of_len (by omega) hipl
        rw [hrd]
        have : rd = routerNet4 env := by
          cases rd with
          | mk i msk =>
            simp only [routerNet4]
            simp only at heq hmask
            rw [heq, hmask, hmv]
        rw [this]
    · have hsz := maskSize_cidr128 m hmr
      rw [hmask] at hms
      have hmx : maskSize (cidrMask m 128) = maskSize (cidrMask 32 32) := hms
      rw [hsz, hms32] at hmx
      have : (128 : Nat) = 32 := (Prod.mk.injEq _ _ _ _ ▸ hmx).2
      omega
  · intro hm
    obtain ⟨_, _, _, rd, fd, hrd, hfd, hms, hip⟩ := matchRoute_elim _ _ hm
    have hfd2 : fd = routerNet6 env := by
      have : some (routerNet6 env) = some fd := hfd
      exact (Option.some.injEq _ _ ▸ this).symm
    subst hfd2
    unfold wfEntry at hw
    rw [hrd] at hw
    simp only [wfNet, Bool.or_eq_true, Bool.and_eq_true, List.any_eq_true,
      beq_iff_eq] at hw
    have hms128 : maskSize (cidrMask 128 128) = (128, 128) := maskSize_cidr128 128 (by simp)
    rcases hw with ⟨hlen, m, hmr, hmask⟩ | ⟨hlen, m, hmr, hmask⟩
    · have hsz := maskSize_cidr32 m hmr
      rw [hmask] at hms
      have hmx : maskSize (cidrMask m 32) = maskSize (cidrMask 128 128) := hms
      rw [hsz, hms128] at hmx
      have : (32 : Nat) = 128 := (Prod.mk.injEq _ _ _ _ ▸ hmx).2
      omega
    · have hsz := maskSize_cidr128 m hmr
      rw [hmask] at hms
      have hmx : maskSize (cidrMask m 128) = maskSize (cidrMask 128 128) := hms
      rw [hsz, hms128] at hmx
      have hmv : m = 128 := (Prod.mk.injEq _ _ _ _ ▸ hmx).1
      rcases h6 with hz | hl6
      · have h0 : env.ipv6Router.length = 0 := by rw [hz]; rfl
        have hipl : ipEqual rd.ip env.ipv6Router = true := hip
        rcases ipEqual_len_cases hipl with hc | hc | hc <;> omega
      · have hipl : ipEqual rd.ip env.ipv6Router = true := hip
        have heq : rd.ip = env.ipv6Router := ipEqual_eq_of_len (by omega) hipl
        rw [hrd]
        have : rd = routerNet6 env := by
          cases rd with
          | mk i msk =>
            simp only [routerNet6]
            simp only at heq hmask
            rw [heq, hmask, hmv]
        rw [this]

theorem goodVal_nhf4 (env : Env) (link : Link) :
    GoodVal env link (nhFilter link (routerNet4 env)) := by
  constructor
  · intro _; rfl
  · intro h
    obtain ⟨_, _, _, rd, fd, hrd, hfd, hms, _⟩ := matchRoute_elim _ _ h
    have h1 : rd = routerNet4 env := by
      have : some (routerNet4 env) = some rd := hrd
      exact (Option.some.injEq _ _ ▸ this).symm
    have h2 : fd = routerNet6 env := by
      have : some (routerNet6 env) = some fd := hfd
      exact (Option.some.injEq _ _ ▸ this).symm
    subst h1; subst h2
    have hx : maskSize (cidrMask 32 32) = maskSize (cidrMask 128 128) := hms
    exact absurd hx (by decide)

theorem goodVal_nhf6 (env : Env) (link : Link) :
    GoodVal env link (nhFilter link (routerNet6 env)) := by
  constructor
  · intro h
    obtain ⟨_, _, _, rd, fd, hrd, hfd, hms, _⟩ := matchRoute_elim _ _ h
    have h1 : rd = routerNet6 env := by
      have : some (routerNet6 env) = some rd := hrd
      exact (Option.some.injEq _ _ ▸ this).symm
    have h2 : fd = routerNet4 env := by
      have : some (routerNet4 env) = some fd := hfd
      exact (Option.some.injEq _ _ ▸ this).symm
    subst h1; subst h2
    have hx : maskSize (cidrMask 128 128) = maskSize (cidrMask 32 32) := hms
    exact absurd hx (by decide)
  · intro _; rfl

theorem matchRoute_self (f : NlRoute) (d : IPNet) (h : f.dst = some d) :
    matchRoute f f = true := by
  unfold matchRoute
  rw [h]
  simp [ipEqual_refl]

theorem guardK_self (lf : Bool) (link : Link) (rn : IPNet) :
    guardK lf link (nhFilter link rn) (some (nhFilter link rn)) = true ∨
      ∀ y, guardK lf link (nhFilter link rn) y = false := by
  cases lf with
  | false =>
    left
    simp only [guardK, listedOn, matchRoute_self (nhFilter link rn) rn rfl,
      Bool.not_false, Bool.and_true, Bool.true_and, Bool.and_eq_true, beq_iff_eq]
    exact ⟨rfl, rfl⟩
  | true =>
    right
    intro y
    cases y <;> simp [guardK]

/-! ### Per-key semantics of a pass -/

theorem tableFind_isSome_eq_guardK (lf : Bool) (link : Link) (t : List NlRoute) (f : NlRoute)
    (hG : ∀ r ∈ t, matchRoute f r = true → r.dst = f.dst) (hnd : NoDupKeys t) :
    (tableFind lf link t f).isSome = guardK lf link f (lookupKey t f.dst) := by
  cases lf with
  | true => cases hl : lookupKey t f.dst <;> simp [tableFind, guardK]
  | false =>
    show ((t.filter (listedOn link f)).find? (fun r => matchRoute f r)).isSome = _
    by_cases hx : ∃ r ∈ t, listedOn link f r = true ∧ matchRoute f r = true
    · obtain ⟨r, hrt, hrl, hrm⟩ := hx
      have hrd : r.dst = f.dst := hG r hrt hrm
      have hlk : lookupKey t f.dst = some r := hrd ▸ lookupKey_of_mem hnd hrt
      rw [hlk]
      have h1 : ((t.filter (listedOn link f)).find? (fun r => matchRoute f r)).isSome := by
        rw [List.find?_isSome]
        exact ⟨r, List.mem_filter.mpr ⟨hrt, hrl⟩, hrm⟩
      rw [h1]
      simp [guardK, hrl, hrm]
    · have h1 : (t.filter (listedOn link f)).find? (fun r => matchRoute f r) = none := by
        rw [List.find?_eq_none]
        intro x hxf hmx
        exact hx ⟨x, (List.mem_filter.mp hxf).1, (List.mem_filter.mp hxf).2, hmx⟩
      rw [h1]
      cases hl : lookupKey t f.dst with
      | none => simp [guardK]
      | some r =>
        obtain ⟨hrt, _⟩ := lookupKey_eq_some hl
        by_cases hc : matchRoute f r = true
        · by_cases hb : listedOn link f r = true
          · exact absurd ⟨r, hrt, hb, hc⟩ hx
          · have hb2 : listedOn link f r = false := by simpa using hb
            simp [guardK, hb2]
        · have hc2 : matchRoute f r = false := by simpa using hc
          simp [guardK, hc2]

theorem applyK_lookup (env : Env) (lf : Bool) (link : Link) (t : List NlRoute) (o : KOp)
    (d : Option IPNet) (hG : GoodTable env link t) (hnd : NoDupKeys t)
    (ho : GoodOp env link o) :
    lookupKey (applyK lf link t o) d =
      if KOp.key o = d then stepK lf link (lookupKey t d) o else lookupKey t d := by
  cases o with
  | write v =>
    show lookupKey (upsert t v) d = if v.dst = d then some v else lookupKey t d
    by_cases h : v.dst = d
    · rw [if_pos h, ← h, lookupKey_upsert_self]
    · rw [if_neg h, lookupKey_upsert_other t v d (fun hc => h hc.symm)]
  | ensure f =>
    have hff : ∀ r ∈ t, matchRoute f r = true → r.dst = f.dst := by
      intro r hr hm
      rcases ho with h | h
      · subst h; exact (hG r hr).1 hm
      · subst h; exact (hG r hr).2 hm
    show lookupKey (if (tableFind lf link t f).isSome then t else upsert t f) d =
      if f.dst = d then
        (if guardK lf link f (lookupKey t d) then lookupKey t d else some f)
      else lookupKey t d
    rw [tableFind_isSome_eq_guardK lf link t f hff hnd]
    by_cases hg : guardK lf link f (lookupKey t f.dst) = true
    · rw [if_pos hg]
      by_cases hk : f.dst = d
      · subst hk
        rw [if_pos rfl, if_pos hg]
      · rw [if_neg hk]
    · rw [if_neg hg]
      by_cases hk : f.dst = d
      · subst hk
        rw [if_pos rfl, if_neg hg, lookupKey_upsert_self]
      · rw [if_neg hk, lookupKey_upsert_other t f d (fun hc => hk hc.symm)]

theorem goodTable_applyK {env : Env} {link : Link} {lf : Bool} {t : List NlRoute} {o : KOp}
    (hG : GoodTable env link t) (ho : GoodOp env link o) :
    GoodTable env link (applyK lf link t o) := by
  cases o with
  | write v =>
    intro r hr
    rcases mem_upsert hr with h | h
    · exact hG r h
    · exact h ▸ ho
  | ensure f =>
    show GoodTable env link (if (tableFind lf link t f).isSome then t else upsert t f)
    split
    · exact hG
    · intro r hr
      rcases mem_upsert hr with h | h
      · exact hG r h
      · rcases ho with hf | hf
        · exact h ▸ hf ▸ goodVal_nhf4 env link
        · exact h ▸ hf ▸ goodVal_nhf6 env link

theorem noDupKeys_applyK {lf : Bool} {link : Link} {t : List NlRoute} {o : KOp}
    (hnd : NoDupKeys t) : NoDupKeys (applyK lf link t o) := by
  cases o with
  | write v => exact noDupKeys_upsert v hnd
  | ensure f =>
    show NoDupKeys (if (tableFind lf link t f).isSome then t else upsert t f)
    split
    · exact hnd
    · exact noDupKeys_upsert f hnd

theorem runOps_append (lf : Bool) (link : Link) (L1 L2 : List KOp) (t : List NlRoute) :
    runOps lf link (L1 ++ L2) t = runOps lf link L2 (runOps lf link L1 t) :=
  List.foldl_append _ _ _ _

theorem goodTable_runOps {env : Env} {link : Link} {lf : Bool} {L : List KOp}
    {t : List NlRoute} (hL : ∀ o ∈ L, GoodOp env link o) (hG : GoodTable env link t) :
    GoodTable env link (runOps lf link L t) := by
  induction L generalizing t with
  | nil => exact hG
  | cons o L ih =>
    exact ih (fun x hx => hL x (List.mem_cons_of_mem _ hx))
      (goodTable_applyK hG (hL o (List.mem_cons_self _ _)))

theorem noDupKeys_runOps {lf : Bool} {link : Link} {L : List KOp} {t : List NlRoute}
    (hnd : NoDupKeys t) : NoDupKeys (runOps lf link L t) := by
  induction L generalizing t with
  | nil => exact hnd
  | cons o L ih => exact ih (noDupKeys_applyK hnd)

theorem opsAt_cons (d : Option IPNet) (o : KOp) (L : List KOp) :
    opsAt d (o :: L) = if KOp.key o = d then o :: opsAt d L else opsAt d L := by
  unfold opsAt
  rw [List.filter_cons]
  by_cases h : KOp.key o = d
  · rw [if_pos (beq_iff_eq.mpr h), if_pos h]
  · rw [if_neg (by simp [h]), if_neg h]

theorem runOps_lookup (env : Env) (lf : Bool) (link : Link) (L : List KOp)
    (t : List NlRoute) (d : Option IPNet) (hL : ∀ o ∈ L, GoodOp env link o)
    (hG : GoodTable env link t) (hnd : NoDupKeys t) :
    lookupKey (runOps lf link L t) d = runK lf link (opsAt d L) (lookupKey t d) := by
  induction L generalizing t with
  | nil => rfl
  | cons o L ih =>
    have ho := hL o (List.mem_cons_self _ _)
    have hL2 := fun x hx => hL x (List.mem_cons_of_mem _ hx)
    have h1 : runOps lf link (o :: L) t = runOps lf link L (applyK lf link t o) := rfl
    rw [h1, ih (applyK lf link t o) hL2 (goodTable_applyK hG ho) (noDupKeys_applyK hnd),
      applyK_lookup env lf link t o d hG hnd ho, opsAt_cons]
    by_cases hk : KOp.key o = d
    · rw [if_pos hk, if_pos hk]
      rfl
    · rw [if_neg hk, if_neg hk]

/-! ### Last-writer-wins idempotence at one key -/

theorem runK_cons (lf : Bool) (link : Link) (o : KOp) (M : List KOp) (x : Option NlRoute) :
    runK lf link (o :: M) x = runK lf link M (stepK lf link x o) := rfl

theorem runK_ensure_align (lf : Bool) (link : Link) (M : List KOp) (f0 : NlRoute)
    (hE : ∀ f, KOp.ensure f ∈ M → f = f0)
    (hself : guardK lf link f0 (some f0) = true) (x : Option NlRoute)
    (hx : guardK lf link f0 x = true) :
    runK lf link M (some f0) = runK lf link M x ∨ runK lf link M x = x := by
  induction M with
  | nil => exact Or.inr rfl
  | cons o M ih =>
    cases o with
    | write v => exact Or.inl rfl
    | ensure f =>
      have hf : f = f0 := hE f (List.mem_cons_self _ _)
      subst hf
      have hE2 : ∀ g, KOp.ensure g ∈ M → g = f :=
        fun g hg => hE g (List.mem_cons_of_mem _ hg)
      have s1 : stepK lf link (some f) (KOp.ensure f) = some f := by simp [stepK, hself]
      have s2 : stepK lf link x (KOp.ensure f) = x := by simp [stepK, hx]
      rw [runK_cons, runK_cons, s1, s2]
      exact ih hE2

theorem runK_idem (lf : Bool) (link : Link) (M : List KOp) (f0 : NlRoute)
    (hE : ∀ f, KOp.ensure f ∈ M → f = f0)
    (hself : guardK lf link f0 (some f0) = true ∨ ∀ y, guardK lf link f0 y = false)
    (x : Option NlRoute) :
    runK lf link M (runK lf link M x) = runK lf link M x := by
  induction M generalizing x with
  | nil => rfl
  | cons o M ih =>
    cases o with
    | write v => rfl
    | ensure f =>
      have hf : f = f0 := hE f (List.mem_cons_self _ _)
      subst hf
      have hE2 : ∀ g, KOp.ensure g ∈ M → g = f :=
        fun g hg => hE g (List.mem_cons_of_mem _ hg)
      by_cases hw : guardK lf link f (runK lf link M (stepK lf link x (KOp.ensure f))) = true
      · have s1 : stepK lf link (runK lf link M (stepK lf link x (KOp.ensure f)))
            (KOp.ensure f) = runK lf link M (stepK lf link x (KOp.ensure f)) := by
          show (if guardK lf link f (runK lf link M (stepK lf link x (KOp.ensure f))) = true
            then runK lf link M (stepK lf link x (KOp.ensure f)) else some f) =
              runK lf link M (stepK lf link x (KOp.ensure f))
          rw [if_pos hw]
        show runK lf link M (stepK lf link (runK lf link M (stepK lf link x (KOp.ensure f)))
          (KOp.ensure f)) = runK lf link M (stepK lf link x (KOp.ensure f))
        rw [s1]
        exact ih hE2 (stepK lf link x (KOp.ensure f))
      · have s1 : stepK lf link (runK lf link M (stepK lf link x (KOp.ensure f)))
            (KOp.ensure f) = some f := by
          show (if guardK lf link f (runK lf link M (stepK lf link x (KOp.ensure f))) = true
            then runK lf link M (stepK lf link x (KOp.ensure f)) else some f) = some f
          rw [if_neg hw]
        show runK lf link M (stepK lf link (runK lf link M (stepK lf link x (KOp.ensure f)))
          (KOp.ensure f)) = runK lf link M (stepK lf link x (KOp.ensure f))
        rw [s1]
        by_cases hz : guardK lf link f x = true
        · have hzx : stepK lf link x (KOp.ensure f) = x := by simp [stepK, hz]
          have hs : guardK lf link f (some f) = true := by
            rcases hself with h | h
            · exact h
            · exact absurd (h x) (by simp [hz])
          rcases runK_ensure_align lf link M f hE2 hs x hz with h | h
          · rw [hzx]
            exact h
          · exfalso
            apply hw
            rw [hzx, h]
            exact hz
        · have hzz : stepK lf link x (KOp.ensure f) = some f := by simp [stepK, hz]
          rw [hzz]
/-! ### The operation list of one pass, and its simulation of the source -/

/-- The route spec `replaceNodeRoute` writes for an IPv4 prefix. -/
def nodeWriteRoute4 (env : Env) (link : Link) (ipn : IPNet) : NlRoute :=
  { linkIndex := link.index, dst := some ipn, gw := env.internalIPv4,
    src := env.internalIPv4, scope := SCOPE_UNIVERSE }

/-- The route spec `replaceNodeRoute` writes for an IPv6 prefix. -/
def nodeWriteRoute6 (env : Env) (link : Link) (ipn : IPNet) : NlRoute :=
  { linkIndex := link.index, dst := some ipn, gw := env.ipv6Router,
    src := env.ipv6, scope := SCOPE_UNIVERSE }

/-- The operations `replaceNodeRoute` performs for one (possibly nil) prefix:
ensure the family's nexthop route, then replace the prefix's route. -/
def nodeRouteOps (env : Env) (link : Link) : Option IPNet → List KOp
  | none => []
  | some ipn =>
    if (ipTo4 ipn.ip).isSome then
      [KOp.ensure (nhFilter link (routerNet4 env)), KOp.write (nodeWriteRoute4 env link ipn)]
    else
      [KOp.ensure (nhFilter link (routerNet6 env)), KOp.write (nodeWriteRoute6 env link ipn)]

/-- The operations the datapath hook performs for one node prefix. -/
def prefixOps (env : Env) (cc : clusterConfiguration) (n : Node) (p : IPNet) : List KOp :=
  let r := generateRoute env cc n p
  if r.via != [] || r.link != "" then
    match getNetlinkRoute env r with
    | none => []
    | some rt => [KOp.write rt]
  else []

def datapathOps (env : Env) (cc : clusterConfiguration) (n : Node) : List KOp :=
  n.prefixes.flatMap (prefixOps env cc n)

def fallbackOps (env : Env) (cc : clusterConfiguration) (link : Link) : List KOp :=
  if !cc.usePerNodeRoutes then
    nodeRouteOps env link env.ipv4AllocRange ++ nodeRouteOps env link env.ipv6AllocRange
  else []

/-- The full operation list of a successful pass, a function of the snapshot
only. -/
def opsOf (env : Env) (cc : clusterConfiguration) (link : Link) : List KOp :=
  KOp.ensure (nhFilter link (routerNet4 env)) ::
    KOp.ensure (nhFilter link (routerNet6 env)) ::
    (cc.nodes.flatMap (datapathOps env cc) ++ fallbackOps env cc link ++
      cc.auxPrefixes.flatMap (nodeRouteOps env link))

/-- The kernel agrees with a raw table and fixed failure behaviour. -/
def KernelSim (k : Kernel) (lf : Bool) (rf : NlRoute → Bool) (t : List NlRoute) : Prop :=
  k.table = t ∧ k.listFails = lf ∧ k.replaceFails = rf

theorem RouteReplace_sim {k : Kernel} {lf : Bool} {rf : NlRoute → Bool} {t : List NlRoute}
    (hs : KernelSim k lf rf t) (rt : NlRoute) (hA : ∀ x, rf x = false) :
    (RouteReplace k rt).2 = true ∧ KernelSim (RouteReplace k rt).1 lf rf (upsert t rt) := by
  obtain ⟨ht, hl, hr⟩ := hs
  have hfail : k.replaceFails rt = false := by rw [hr]; exact hA rt
  refine ⟨by simp [RouteReplace, hfail], ?_, ?_, ?_⟩ <;>
    simp [RouteReplace, hfail, ht, hl, hr]

theorem replaceNexthopRoute_sim {k : Kernel} {lf : Bool} {rf : NlRoute → Bool}
    {t : List NlRoute} (hs : KernelSim k lf rf t) (link : Link) (rn : IPNet)
    (hA : ∀ x, rf x = false) :
    (replaceNexthopRoute k link rn).2 = true ∧
      KernelSim (replaceNexthopRoute k link rn).1 lf rf
        (applyK lf link t (KOp.ensure (nhFilter link rn))) := by
  have hf : findRoute k link (nhFilter link rn) = tableFind lf link t (nhFilter link rn) := by
    rw [findRoute_eq_tableFind, hs.1, hs.2.1]
  cases hfind : tableFind lf link t (nhFilter link rn) with
  | some r =>
    have e1 : replaceNexthopRoute k link rn = (k, true) := by
      simp only [replaceNexthopRoute, hf, hfind]
    have e2 : applyK lf link t (KOp.ensure (nhFilter link rn)) = t := by
      show (if (tableFind lf link t (nhFilter link rn)).isSome then t
        else upsert t (nhFilter link rn)) = t
      rw [hfind]
      rfl
    rw [e1, e2]
    exact ⟨rfl, hs⟩
  | none =>
    have e1 : replaceNexthopRoute k link rn = RouteReplace k (nhFilter link rn) := by
      simp only [replaceNexthopRoute, hf, hfind]
    have e2 : applyK lf link t (KOp.ensure (nhFilter link rn)) =
        upsert t (nhFilter link rn) := by
      show (if (tableFind lf link t (nhFilter link rn)).isSome then t
        else upsert t (nhFilter link rn)) = upsert t (nhFilter link rn)
      rw [hfind]
      rfl
    rw [e1, e2]
    exact RouteReplace_sim ⟨hs.1, hs.2.1, hs.2.2⟩ (nhFilter link rn) hA

theorem replaceNodeRoute_sim {env : Env} {k : Kernel} {lf : Bool} {rf : NlRoute → Bool}
    {t : List NlRoute} {link : Link} (hl : env.linkByName env.hostDevice = some link)
    (hs : KernelSim k lf rf t) (p : Option IPNet) (hA : ∀ x, rf x = false) :
    KernelSim (replaceNodeRoute env k p) lf rf
      (runOps lf link (nodeRouteOps env link p) t) := by
  cases p with
  | none => exact hs
  | some ipn =>
    by_cases hip : (ipTo4 ipn.ip).isSome
    · have e1 : replaceNodeRoute env k (some ipn) =
          (RouteReplace (replaceNexthopRoute k link (routerNet4 env)).1
            (nodeWriteRoute4 env link ipn)).1 := by
        simp only [replaceNodeRoute, hl, hip, if_pos, nodeWriteRoute4]
      have e2 : nodeRouteOps env link (some ipn) =
          [KOp.ensure (nhFilter link (routerNet4 env)),
            KOp.write (nodeWriteRoute4 env link ipn)] := by
        simp only [nodeRouteOps, hip, if_pos]
      rw [e1, e2]
      have h1 := replaceNexthopRoute_sim hs link (routerNet4 env) hA
      exact (RouteReplace_sim h1.2 _ hA).2
    · have e1 : replaceNodeRoute env k (some ipn) =
          (RouteReplace (replaceNexthopRoute k link (routerNet6 env)).1
            (nodeWriteRoute6 env link ipn)).1 := by
        simp only [replaceNodeRoute, hl, nodeWriteRoute6]
        rw [if_neg hip]
      have e2 : nodeRouteOps env link (some ipn) =
          [KOp.ensure (nhFilter link (routerNet6 env)),
            KOp.write (nodeWriteRoute6 env link ipn)] := by
        simp only [nodeRouteOps]
        rw [if_neg hip]
      rw [e1, e2]
      have h1 := replaceNexthopRoute_sim hs link (routerNet6 env) hA
      exact (RouteReplace_sim h1.2 _ hA).2

theorem foldl_sim {α : Type} {lf : Bool} {rf : NlRoute → Bool} (link : Link)
    (step : Kernel → α → Kernel) (ops : α → List KOp)
    (hstep : ∀ {k : Kernel} {t : List NlRoute} (a : α), KernelSim k lf rf t →
      KernelSim (step k a) lf rf (runOps lf link (ops a) t)) :
    ∀ (L : List α) {k : Kernel} {t : List NlRoute}, KernelSim k lf rf t →
      KernelSim (L.foldl step k) lf rf (runOps lf link (L.flatMap ops) t) := by
  intro L
  induction L with
  | nil => intro k t hs; exact hs
  | cons a L ih =>
    intro k t hs
    show KernelSim (L.foldl step (step k a)) lf rf
      (runOps lf link (ops a ++ L.flatMap ops) t)
    rw [runOps_append]
    exact ih (hstep a hs)

theorem synchronizeToDatapath_sim {env : Env} {cc : clusterConfiguration} {lf : Bool}
    {rf : NlRoute → Bool} {link : Link} {n : Node} {k : Kernel} {t : List NlRoute}
    (hs : KernelSim k lf rf t) (hA : ∀ x, rf x = false) :
    KernelSim (synchronizeToDatapath env cc n k) lf rf
      (runOps lf link (datapathOps env cc n) t) := by
  refine foldl_sim link _ (prefixOps env cc n) ?_ n.prefixes hs
  intro k t p hs
  unfold prefixOps
  by_cases hc : ((generateRoute env cc n p).via != [] ||
      (generateRoute env cc n p).link != "") = true
  · show KernelSim (if (generateRoute env cc n p).via != [] ||
        (generateRoute env cc n p).link != "" then
          match getNetlinkRoute env (generateRoute env cc n p) with
          | none => k
          | some rt => (RouteReplace k rt).1
        else k) lf rf _
    rw [if_pos hc]
    have e2 : (let r := generateRoute env cc n p
        if r.via != [] || r.link != "" then
          match getNetlinkRoute env r with
          | none => ([] : List KOp)
          | some rt => [KOp.write rt]
        else []) =
        (match getNetlinkRoute env (generateRoute env cc n p) with
          | none => ([] : List KOp)
          | some rt => [KOp.write rt]) := by
      show (if (generateRoute env cc n p).via != [] ||
          (generateRoute env cc n p).link != "" then
            match getNetlinkRoute env (generateRoute env cc n p) with
            | none => ([] : List KOp)
            | some rt => [KOp.write rt]
          else []) = _
      rw [if_pos hc]
    rw [e2]
    cases hg : getNetlinkRoute env (generateRoute env cc n p) with
    | none => exact hs
    | some rt => exact (RouteReplace_sim hs rt hA).2
  · show KernelSim (if (generateRoute env cc n p).via != [] ||
        (generateRoute env cc n p).link != "" then
          match getNetlinkRoute env (generateRoute env cc n p) with
          | none => k
          | some rt => (RouteReplace k rt).1
        else k) lf rf _
    rw [if_neg hc]
    have e2 : (let r := generateRoute env cc n p
        if r.via != [] || r.link != "" then
          match getNetlinkRoute env r with
          | none => ([] : List KOp)
          | some rt => [KOp.write rt]
        else []) = ([] : List KOp) := by
      show (if (generateRoute env cc n p).via != [] ||
          (generateRoute env cc n p).link != "" then
            match getNetlinkRoute env (generateRoute env cc n p) with
            | none => ([] : List KOp)
            | some rt => [KOp.write rt]
          else []) = _
      rw [if_neg hc]
    rw [e2]
    exact hs

theorem fallback_sim {env : Env} (cc : clusterConfiguration) {lf : Bool}
    {rf : NlRoute → Bool} {link : Link} {k : Kernel} {t : List NlRoute}
    (hl : env.linkByName env.hostDevice = some link) (hs : KernelSim k lf rf t)
    (hA : ∀ x, rf x = false) :
    KernelSim
      (if !cc.usePerNodeRoutes then
        replaceNodeRoute env (replaceNodeRoute env k env.ipv4AllocRange) env.ipv6AllocRange
      else k) lf rf (runOps lf link (fallbackOps env cc link) t) := by
  unfold fallbackOps
  by_cases hu : (!cc.usePerNodeRoutes) = true
  · rw [if_pos hu, if_pos hu, runOps_append]
    exact replaceNodeRoute_sim hl (replaceNodeRoute_sim hl hs _ hA) _ hA
  · rw [if_neg hu, if_neg hu]
    exact hs

theorem syncClusterRouting_sim (env : Env) (cc : clusterConfiguration) {k : Kernel}
    {lf : Bool} {rf : NlRoute → Bool} {t : List NlRoute} {link : Link}
    (hl : env.linkByName env.hostDevice = some link) (hs : KernelSim k lf rf t)
    (hA : ∀ x, rf x = false) :
    (syncClusterRouting env cc k).2 = .ok () ∧
      KernelSim (syncClusterRouting env cc k).1 lf rf
        (runOps lf link (opsOf env cc link) t) := by
  have h4 := replaceNexthopRoute_sim hs link (routerNet4 env) hA
  rcases hrr4 : replaceNexthopRoute k link (routerNet4 env) with ⟨k1, b4⟩
  rw [hrr4] at h4
  cases b4 with
  | false => exact absurd h4.1 (by simp)
  | true =>
    have h6 := replaceNexthopRoute_sim h4.2 link (routerNet6 env) hA
    rcases hrr6 : replaceNexthopRoute k1 link (routerNet6 env) with ⟨k2, b6⟩
    rw [hrr6] at h6
    cases b6 with
    | false => exact absurd h6.1 (by simp)
    | true =>
      have hnodes := foldl_sim link (fun k n => synchronizeToDatapath env cc n k)
        (datapathOps env cc)
        (fun n hsx => synchronizeToDatapath_sim hsx hA)
        cc.nodes h6.2
      have hfb := fallback_sim cc hl hnodes hA
      have haux := foldl_sim link (fun k p => replaceNodeRoute env k p)
        (nodeRouteOps env link) (fun p hsx => replaceNodeRoute_sim hl hsx p hA)
        cc.auxPrefixes hfb
      have e1 : syncClusterRouting env cc k =
          (cc.auxPrefixes.foldl (fun k p => replaceNodeRoute env k p)
            (if !cc.usePerNodeRoutes then
              replaceNodeRoute env
                (replaceNodeRoute env
                  (cc.nodes.foldl (fun k n => synchronizeToDatapath env cc n k) k2)
                  env.ipv4AllocRange)
                env.ipv6AllocRange
            else cc.nodes.foldl (fun k n => synchronizeToDatapath env cc n k) k2),
            .ok ()) := by
        simp only [syncClusterRouting, hl, hrr4, hrr6]
      have e2 : runOps lf link (opsOf env cc link) t =
          runOps lf link (cc.auxPrefixes.flatMap (nodeRouteOps env link))
            (runOps lf link (fallbackOps env cc link)
              (runOps lf link (cc.nodes.flatMap (datapathOps env cc))
                (applyK lf link (applyK lf link t
                  (KOp.ensure (nhFilter link (routerNet4 env))))
                  (KOp.ensure (nhFilter link (routerNet6 env)))))) := by
        show runOps lf link (cc.nodes.flatMap (datapathOps env cc) ++
          fallbackOps env cc link ++ cc.auxPrefixes.flatMap (nodeRouteOps env link)) _ = _
        rw [runOps_append, runOps_append]
      rw [e1, e2]
      exact ⟨rfl, haux⟩

/-! ### The pass's operations are good, and the final idempotence theorem -/

theorem wfenv_fields {env : Env} {cc : clusterConfiguration} (hW : WFEnvCC env cc = true) :
    (env.internalIPv4 = [] ∨ env.internalIPv4.length = 4) ∧
      (env.ipv6Router = [] ∨ env.ipv6Router.length = 16) ∧
      wfOptNet env.ipv4AllocRange = true ∧ wfOptNet env.ipv6AllocRange = true ∧
      (∀ p ∈ cc.auxPrefixes, wfOptNet p = true) ∧
      (∀ n ∈ cc.nodes, ∀ p ∈ n.prefixes, wfNet p = true) := by
  simp only [WFEnvCC, Bool.and_eq_true, Bool.or_eq_true, List.all_eq_true,
    beq_iff_eq, List.isEmpty_iff] at hW
  obtain ⟨⟨⟨⟨⟨h1, h2⟩, h3⟩, h4⟩, h5⟩, h6⟩ := hW
  exact ⟨h1, h2, h3, h4, h5, fun n hn p hp => h6 n hn p hp⟩

theorem getNetlinkRoute_dst {env : Env} {r : route} {rt : NlRoute}
    (h : getNetlinkRoute env r = some rt) : rt.dst = r.pfx := by
  unfold getNetlinkRoute at h
  split at h
  · cases h
    rfl
  · split at h
    · cases h
    · cases h
      rfl

theorem generateRoute_pfx (env : Env) (cc : clusterConfiguration) (n : Node) (p : IPNet) :
    (generateRoute env cc n p).pfx = some p := by
  unfold generateRoute
  split <;> rw [generateRouteForIP_pfx]

theorem goodOps_nodeRouteOps {env : Env} {link : Link}
    (h4 : env.internalIPv4 = [] ∨ env.internalIPv4.length = 4)
    (h6 : env.ipv6Router = [] ∨ env.ipv6Router.length = 16)
    (p : Option IPNet) (hp : wfOptNet p = true) :
    ∀ o ∈ nodeRouteOps env link p, GoodOp env link o := by
  cases p with
  | none => intro o ho; cases ho
  | some ipn =>
    intro o ho
    have ho2 : o ∈ (if (ipTo4 ipn.ip).isSome then
        [KOp.ensure (nhFilter link (routerNet4 env)),
          KOp.write (nodeWriteRoute4 env link ipn)]
      else
        [KOp.ensure (nhFilter link (routerNet6 env)),
          KOp.write (nodeWriteRoute6 env link ipn)]) := ho
    by_cases hip : (ipTo4 ipn.ip).isSome
    · rw [if_pos hip] at ho2
      rcases List.mem_cons.mp ho2 with rfl | ho2
      · exact Or.inl rfl
      · rcases List.mem_cons.mp ho2 with rfl | ho2
        · exact goodVal_of_wf env link _ h4 h6 (by
            show wfNet ipn = true
            exact hp)
        · cases ho2
    · rw [if_neg hip] at ho2
      rcases List.mem_cons.mp ho2 with rfl | ho2
      · exact Or.inr rfl
      · rcases List.mem_cons.mp ho2 with rfl | ho2
        · exact goodVal_of_wf env link _ h4 h6 (by
            show wfNet ipn = true
            exact hp)
        · cases ho2

theorem goodOps_opsOf (env : Env) (cc : clusterConfiguration) (link : Link)
    (hW : WFEnvCC env cc = true) :
    ∀ o ∈ opsOf env cc link, GoodOp env link o := by
  obtain ⟨h4, h6, ha4, ha6, haux, hnode⟩ := wfenv_fields hW
  intro o ho
  unfold opsOf at ho
  rcases List.mem_cons.mp ho with rfl | ho
  · exact Or.inl rfl
  rcases List.mem_cons.mp ho with rfl | ho
  · exact Or.inr rfl
  rcases List.mem_append.mp ho with ho | ho
  · rcases List.mem_append.mp ho with ho | ho
    · obtain ⟨n, hn, hp⟩ := List.mem_flatMap.mp ho
      obtain ⟨p, hpp, hop⟩ := List.mem_flatMap.mp hp
      have hop2 : o ∈ (if (generateRoute env cc n p).via != [] ||
          (generateRoute env cc n p).link != "" then
            match getNetlinkRoute env (generateRoute env cc n p) with
            | none => ([] : List KOp)
            | some rt => [KOp.write rt]
          else []) := hop
      by_cases hc : ((generateRoute env cc n p).via != [] ||
          (generateRoute env cc n p).link != "") = true
      · rw [if_pos hc] at hop2
        cases hg : getNetlinkRoute env (generateRoute env cc n p) with
        | none => rw [hg] at hop2; cases hop2
        | some rt =>
          rw [hg] at hop2
          rcases List.mem_cons.mp hop2 with rfl | hop2
          · have hdst : rt.dst = some p := by
              rw [getNetlinkRoute_dst hg, generateRoute_pfx]
            refine goodVal_of_wf env link rt h4 h6 ?_
            show wfEntry rt = true
            unfold wfEntry
            rw [hdst]
            exact hnode n hn p hpp
          · cases hop2
      · rw [if_neg hc] at hop2
        cases hop2
    · unfold fallbackOps at ho
      split at ho
      · rcases List.mem_append.mp ho with ho | ho
        · exact goodOps_nodeRouteOps h4 h6 env.ipv4AllocRange ha4 o ho
        · exact goodOps_nodeRouteOps h4 h6 env.ipv6AllocRange ha6 o ho
      · cases ho
  · obtain ⟨p, hpp, hop⟩ := List.mem_flatMap.mp ho
    exact goodOps_nodeRouteOps h4 h6 p (haux p hpp) o hop

theorem routerNet4_ne_routerNet6 (env : Env) : routerNet4 env ≠ routerNet6 env := by
  intro h
  have h2 : cidrMask 32 32 = cidrMask 128 128 := congrArg IPNet.mask h
  exact absurd h2 (by decide)

theorem opsAt_ensure_cases {env : Env} {cc : clusterConfiguration} {link : Link}
    {d : Option IPNet} (hW : WFEnvCC env cc = true) {f : NlRoute}
    (h : KOp.ensure f ∈ opsAt d (opsOf env cc link)) :
    (f = nhFilter link (routerNet4 env) ∨ f = nhFilter link (routerNet6 env)) ∧
      f.dst = d := by
  have hmem : KOp.ensure f ∈ opsOf env cc link := List.mem_of_mem_filter h
  have hkey := List.of_mem_filter h
  simp only [beq_iff_eq] at hkey
  exact ⟨goodOps_opsOf env cc link hW _ hmem, hkey⟩

/-- C1: running syncClusterRouting twice against the same snapshot with no
intervening external state change leaves the kernel route state identical
after both calls — the second pass produces zero net kernel mutations (every
key of the table maps to the same entry after the second pass, and no
duplicate keys appear), under: a realizable (well-formed) starting table and
configuration, duplicate-free table keys, and a kernel that accepts the
pass's replaces. The per-node datapath hook is modelled from the spec, and
the kernel's best-match resolution for node IPs (routeGet) is part of the
unchanged external state. -/
theorem syncClusterRouting_idempotent (env : Env) (cc : clusterConfiguration) (k : Kernel)
    (hW : WFEnvCC env cc = true) (hT : WFTable k.table = true)
    (hnd : NoDupKeys k.table) (hA : ∀ rt, k.replaceFails rt = false) :
    (∀ d, lookupKey ((syncClusterRouting env cc
        ((syncClusterRouting env cc k).1)).1).table d =
      lookupKey ((syncClusterRouting env cc k).1).table d) ∧
    NoDupKeys ((syncClusterRouting env cc ((syncClusterRouting env cc k).1)).1).table := by
  cases hl : env.linkByName env.hostDevice with
  | none =>
    have e1 : syncClusterRouting env cc k = (k, .error "interface not found") := by
      simp only [syncClusterRouting, hl]
    rw [e1]
    have e2 : ((k, Except.error "interface not found") : Kernel × Except String Unit).1 = k :=
      rfl
    rw [e2, e1]
    exact ⟨fun d => rfl, hnd⟩
  | some link =>
    have hs0 : KernelSim k k.listFails k.replaceFails k.table := ⟨rfl, rfl, rfl⟩
    have h1 := syncClusterRouting_sim env cc hl hs0 hA
    have hGops := goodOps_opsOf env cc link hW
    obtain ⟨h4e, h6e, _, _, _, _⟩ := wfenv_fields hW
    have hGT : GoodTable env link k.table := fun r hr =>
      goodVal_of_wf env link r h4e h6e (List.all_eq_true.mp hT r hr)
    have hG1 : GoodTable env link
        (runOps k.listFails link (opsOf env cc link) k.table) :=
      goodTable_runOps hGops hGT
    have hnd1 : NoDupKeys (runOps k.listFails link (opsOf env cc link) k.table) :=
      noDupKeys_runOps hnd
    have h2 := syncClusterRouting_sim env cc hl h1.2 hA
    constructor
    · intro d
      rw [h2.2.1, h1.2.1]
      rw [runOps_lookup env k.listFails link _ _ d hGops hG1 hnd1,
        runOps_lookup env k.listFails link _ _ d hGops hGT hnd]
      by_cases hd4 : (nhFilter link (routerNet4 env)).dst = d
      · refine runK_idem k.listFails link _ (nhFilter link (routerNet4 env)) ?_
          (guardK_self k.listFails link (routerNet4 env)) _
        intro f hf
        obtain ⟨hc, hkey⟩ := opsAt_ensure_cases hW hf
        rcases hc with rfl | rfl
        · rfl
        · exfalso
          rw [← hkey] at hd4
          exact routerNet4_ne_routerNet6 env (Option.some.inj hd4)
      · by_cases hd6 : (nhFilter link (routerNet6 env)).dst = d
        · refine runK_idem k.listFails link _ (nhFilter link (routerNet6 env)) ?_
            (guardK_self k.listFails link (routerNet6 env)) _
          intro f hf
          obtain ⟨hc, hkey⟩ := opsAt_ensure_cases hW hf
          rcases hc with rfl | rfl
          · exact absurd hkey hd4
          · rfl
        · refine runK_idem k.listFails link _ (nhFilter link (routerNet4 env)) ?_
            (guardK_self k.listFails link (routerNet4 env)) _
          intro f hf
          obtain ⟨hc, hkey⟩ := opsAt_ensure_cases hW hf
          rcases hc with rfl | rfl
          · exact absurd hkey hd4
          · exact absurd hkey hd6
    · rw [h2.2.1]
      exact noDupKeys_runOps (noDupKeys_runOps hnd)

/-- A well-formed concrete snapshot for the idempotence witness: one remote
node with one pod prefix, fallback routing, an IPv4 allocation range. -/
def wIdemEnv : Env :=
  { hostDevice := "cilium_host", linkByName := fun _ => some { index := 3 },
    internalIPv4 := [10, 0, 0, 1], ipv6Router := [], ipv6 := [],
    ipv4AllocRange := some { ip := [10, 0, 0, 0], mask := cidrMask 16 32 },
    ipv6AllocRange := none, localRouting := none, routeGet := fun _ => none }

def wIdemNode : Node :=
  { name := "node2", ipv4 := [192, 168, 1, 7], ipv6 := [], isLocal := false,
    prefixes := [{ ip := [10, 0, 1, 0], mask := cidrMask 24 32 }] }

def wIdemCC : clusterConfiguration :=
  { nodes := [wIdemNode], auxPrefixes := [], usePerNodeRoutes := false }

def wIdemKernel : Kernel :=
  { table := [], listFails := false, replaceFails := fun _ => false, journal := [] }

/-- C1 witness: after the second pass the entry at the IPv4 router network's
key equals the entry after the first pass, at a concrete snapshot. -/
theorem syncClusterRouting_idempotent_witness :
    lookupKey ((syncClusterRouting wIdemEnv wIdemCC
        ((syncClusterRouting wIdemEnv wIdemCC wIdemKernel).1)).1).table
      (some (routerNet4 wIdemEnv)) =
      lookupKey ((syncClusterRouting wIdemEnv wIdemCC wIdemKernel).1).table
        (some (routerNet4 wIdemEnv)) :=
  (syncClusterRouting_idempotent wIdemEnv wIdemCC wIdemKernel (by decide) (by decide)
    (List.Pairwise.nil) (fun _ => rfl)).1 (some (routerNet4 wIdemEnv))
